import Mathlib

/-!
Verification of the LNURL client (`src/main.rs`)

A shallow embedding of the LNURL command-line client.  The client drives three
flows (channel open, withdraw, auth) against a remote LNURL server over HTTP
and a local Core Lightning node over RPC.  Pure logic (address normalization,
argument parsing, challenge parsing, URL building, outcome handling) is
translated directly from the Rust source.  External collaborators (the `ureq`
HTTP client, the CLN RPC connection, `secp256k1` pubkey parsing, the system
clock) are modelled as oracle records supplying their observable results, and
each flow is embedded as a function from its oracle to the list of effects it
performs (HTTP GETs with their timeout settings, RPC calls) together with its
final outcome.

Behaviour of external libraries that the client logic itself depends on
(`url::Url::parse`, `std::net::IpAddr` parsing and display, the integer
`FromStr` implementations, `serde_json` for the one-field `K1Response`) is
modelled from their documented semantics, restricted to the fragments this
program exercises; each such model carries a doc comment saying what is and
is not covered.
-/

namespace LNURL

/-! ## Character and string utilities -/

/-- Decimal digit characters `0`..`9` have code points 48..57. -/
def digitChar (n : Nat) : Char := Char.ofNat (48 + n)

/-- Lowercase hex digit for a value below 16 (as produced by Rust's `LowerHex`). -/
def hexChar (n : Nat) : Char := if n < 10 then Char.ofNat (48 + n) else Char.ofNat (87 + n)

/-- Fuel-bounded digit expansion in base 10 (most significant first); the
fuel always exceeds the value, so the bound is never hit. -/
def natToDecAux : Nat → Nat → List Char
  | 0, _ => []
  | fuel + 1, n =>
    if n < 10 then [digitChar n]
    else natToDecAux fuel (n / 10) ++ [digitChar (n % 10)]

/-- Decimal rendering of a natural number, as Rust's `Display` for unsigned
integers produces (no sign, no leading zeros, `0` for zero). -/
def natToDec (n : Nat) : List Char := natToDecAux (n + 1) n

/-- Fuel-bounded digit expansion in base 16 (lowercase). -/
def natToHexAux : Nat → Nat → List Char
  | 0, _ => []
  | fuel + 1, n =>
    if n < 16 then [hexChar n]
    else natToHexAux fuel (n / 16) ++ [hexChar (n % 16)]

/-- Lowercase hex rendering of a natural number, as Rust's `LowerHex` produces. -/
def natToHex (n : Nat) : List Char := natToHexAux (n + 1) n

/-- The ten decimal digit characters, named so that the character-set lemmas
below can state membership without repeating the literal list. -/
def decDigits : List Char := ['0', '1', '2', '3', '4', '5', '6', '7', '8', '9']

/-- The sixteen lowercase hexadecimal digit characters. -/
def hexDigits : List Char := decDigits ++ ['a', 'b', 'c', 'd', 'e', 'f']

/-- Numeric value of a decimal digit character. -/
def decVal (c : Char) : Nat := c.toNat - 48

/-- Left fold computing the value of a decimal digit string. -/
def decFold (cs : List Char) : Nat := cs.foldl (fun a c => a * 10 + decVal c) 0

/-- Splits a character list at every occurrence of `sep`, keeping empty pieces,
exactly like Rust's `str::split` on a single-character pattern
(`"a@" → ["a",""]`, `"" → [""]`). -/
def splitChar (sep : Char) : List Char → List (List Char)
  | [] => [[]]
  | c :: rest =>
    let r := splitChar sep rest
    if c = sep then [] :: r
    else
      match r with
      | h :: t => (c :: h) :: t
      | [] => [[c]]

/-- First occurrence split: returns the part before the first `sep` and the
part after it, or `none` when `sep` does not occur. -/
def splitFirstCh (sep : Char) : List Char → Option (List Char × List Char)
  | [] => none
  | c :: rest =>
    if c = sep then some ([], rest)
    else (splitFirstCh sep rest).map (fun p => (c :: p.1, p.2))

/-- Does `s` begin with `pat`?  The first argument is the pattern, and the
recursion is on it, so that a concrete pattern reduces against an abstract
tail. -/
def startsWithList : List Char → List Char → Bool
  | [], _ => true
  | _ :: _, [] => false
  | b :: bs, a :: as => a = b && startsWithList bs as

/-- Index (in characters) of the first occurrence of `pat` in `s`, like Rust's
`str::find` on an ASCII pattern. -/
def findSubIdx (pat : List Char) : List Char → Option Nat
  | [] => if pat.isEmpty then some 0 else none
  | c :: rest =>
    if startsWithList pat (c :: rest) then some 0
    else (findSubIdx pat rest).map (· + 1)

/-- Index of the last occurrence of character `sep` in `s`, like Rust's
`str::rfind` on a character. -/
def rfindCh (sep : Char) : List Char → Option Nat
  | [] => none
  | c :: rest =>
    match rfindCh sep rest with
    | some i => some (i + 1)
    | none => if c = sep then some 0 else none

/-- Substring containment test, like Rust's `str::contains` on a string pattern. -/
def containsSub (pat s : List Char) : Bool := (findSubIdx pat s).isSome

/-- Model of Rust's `str::trim_end_matches('/')`: removes every trailing slash. -/
def trimEndMatchesSlash (s : String) : String :=
  ⟨(s.data.reverse.dropWhile (fun c => c = '/')).reverse⟩

/-- ASCII lowercase of one character. -/
def toLowerCh (c : Char) : Char :=
  if 'A' ≤ c ∧ c ≤ 'Z' then Char.ofNat (c.toNat + 32) else c

/-- Model of Rust's `str::trim`: drops whitespace from both ends.  Rust trims
Unicode whitespace; this model covers the ASCII whitespace characters, which is
what the LNURL challenge bodies can contain. -/
def trimChars (cs : List Char) : List Char :=
  ((cs.dropWhile Char.isWhitespace).reverse.dropWhile Char.isWhitespace).reverse

/-- Model of Rust's unsigned-integer `FromStr` (used for `u16` ports and the
`u64` amount): an optional leading `+`, then one or more decimal digits with
leading zeros allowed, failing on any other character or on overflow past
`maxVal`. -/
def parseUIntRust (maxVal : Nat) (s : List Char) : Option Nat :=
  let s1 := if s.head? = some '+' then s.tail else s
  if s1.isEmpty then none
  else if s1.all Char.isDigit then
    let v := decFold s1
    if v ≤ maxVal then some v else none
  else none

/-! ## IP address model (Rust `std::net`)

`Ipv4Addr`/`Ipv6Addr`/`IpAddr` parsing follows the grammar of
`core::net::parser` (octets are 1-3 decimal digits without leading zeros and
at most 255; IPv6 groups are 1-4 hex digits, a single `::`, an optional
embedded IPv4 tail occupying the last two groups, and the whole string must be
consumed).  Display follows `impl Display for Ipv4Addr/Ipv6Addr` (dotted
decimal; for IPv6 the unspecified/loopback/IPv4-mapped special cases, then
compression of the leftmost longest run of two or more zero groups). -/

/-- An IPv4 address as four octets. -/
structure Ipv4 where
  a : Nat
  b : Nat
  c : Nat
  d : Nat
deriving DecidableEq, Repr

/-- An IPv6 address as its eight 16-bit groups. -/
structure Ipv6 where
  groups : List Nat
deriving DecidableEq, Repr

/-- Value of a digit character in the given radix (10 or 16), if valid. -/
def digitValIn (radix : Nat) (c : Char) : Option Nat :=
  if c.isDigit then some (c.toNat - 48)
  else if radix = 16 ∧ 'a' ≤ c ∧ c ≤ 'f' then some (c.toNat - 87)
  else if radix = 16 ∧ 'A' ≤ c ∧ c ≤ 'F' then some (c.toNat - 70)
  else none

/-- Model of `Parser::read_number` from `core::net::parser`: greedily reads
digits in `radix`, failing when there are none, when there are more than
`maxDigits`, when a leading zero is present but not allowed, or when the value
exceeds `maxVal` (the checked-arithmetic overflow of the target type). -/
def readNumber (radix maxDigits maxVal : Nat) (allowZeroPre : Bool) (s : List Char) :
    Option (Nat × List Char) :=
  let digs := s.takeWhile (fun c => (digitValIn radix c).isSome)
  let rest := s.dropWhile (fun c => (digitValIn radix c).isSome)
  if digs.isEmpty then none
  else if maxDigits < digs.length then none
  else if ¬allowZeroPre ∧ 1 < digs.length ∧ digs.head? = some '0' then none
  else
    let v := digs.foldl (fun a c => a * radix + (digitValIn radix c).getD 0) 0
    if maxVal < v then none else some (v, rest)

/-- Reads a dotted-decimal IPv4 address from the front of `s`, returning the
octets and the unconsumed rest (`Parser::read_ipv4_addr`). -/
def readIpv4Chunks (s : List Char) : Option (Ipv4 × List Char) :=
  match readNumber 10 3 255 false s with
  | some (a, '.' :: r1) =>
    match readNumber 10 3 255 false r1 with
    | some (b, '.' :: r2) =>
      match readNumber 10 3 255 false r2 with
      | some (c, '.' :: r3) =>
        match readNumber 10 3 255 false r3 with
        | some (d, r4) => some (⟨a, b, c, d⟩, r4)
        | none => none
      | _ => none
    | _ => none
  | _ => none

/-- Model of `Ipv4Addr::from_str`: a full dotted-decimal address consuming the
entire input. -/
def ipv4Parse (s : List Char) : Option Ipv4 :=
  match readIpv4Chunks s with
  | some (ip, []) => some ip
  | _ => none

/-- Model of `Display for Ipv4Addr`: dotted decimal. -/
def ipv4Display (ip : Ipv4) : List Char :=
  natToDec ip.a ++ '.' :: natToDec ip.b ++ '.' :: natToDec ip.c ++ '.' :: natToDec ip.d

/-- One step group reader for IPv6 (`read_groups` in `core::net::parser`):
reads up to `lim` colon-separated groups, trying an embedded IPv4 tail
whenever at least two slots remain; returns the groups read, whether the
IPv4 tail was used, and the unconsumed input.  `first` is true when the next
group needs no preceding `:`. -/
def readGroupsAux : Nat → Bool → List Char → List Nat × Bool × List Char
  | 0, _, s => ([], false, s)
  | lim + 1, first, s =>
    let afterSep : Option (List Char) :=
      if first then some s
      else
        match s with
        | ':' :: r => some r
        | _ => none
    match afterSep with
    | none => ([], false, s)
    | some s1 =>
      match (if lim + 1 ≥ 2 then readIpv4Chunks s1 else none) with
      | some (ip, rest) => ([ip.a * 256 + ip.b, ip.c * 256 + ip.d], true, rest)
      | none =>
        match readNumber 16 4 65535 true s1 with
        | some (g, rest) =>
          let t := readGroupsAux lim false rest
          (g :: t.1, t.2.1, t.2.2)
        | none => ([], false, s)

/-- Model of `Ipv6Addr::from_str` (`read_ipv6_addr`): up to eight groups, an
optional single `::` standing for at least one zero group, an optional
embedded IPv4 tail, and the whole input consumed. -/
def ipv6Parse (s : List Char) : Option Ipv6 :=
  let h := readGroupsAux 8 true s
  let head := h.1
  let headV4 := h.2.1
  let rest := h.2.2
  if head.length = 8 then
    if rest.isEmpty then some ⟨head⟩ else none
  else if headV4 then none
  else
    match rest with
    | ':' :: ':' :: rest2 =>
      let limit := 8 - (head.length + 1)
      let t := readGroupsAux limit true rest2
      if t.2.2.isEmpty then
        some ⟨head ++ List.replicate (8 - head.length - t.1.length) 0 ++ t.1⟩
      else none
    | _ => none

/-- The leftmost longest run of zero groups (`Display for Ipv6Addr`): fold
carrying the best and current `(start, len)` spans, a new run only replacing a
strictly shorter best. -/
def zeroRunGo : List Nat → Nat → Nat × Nat → Nat × Nat → Nat × Nat
  | [], _, longest, _ => longest
  | g :: rest, i, longest, current =>
    if g = 0 then
      let cur2 := if current.2 = 0 then (i, 1) else (current.1, current.2 + 1)
      let best := if cur2.2 > longest.2 then cur2 else longest
      zeroRunGo rest (i + 1) best cur2
    else zeroRunGo rest (i + 1) longest (0, 0)

/-- Leftmost longest zero-group run of an IPv6 segment list. -/
def longestZeroRun (gs : List Nat) : Nat × Nat := zeroRunGo gs 0 (0, 0) (0, 0)

/-- Joins hex group renderings with `:` separators. -/
def joinColon : List (List Char) → List Char
  | [] => []
  | [p] => p
  | p :: rest => p ++ ':' :: joinColon rest

/-- Model of `Display for Ipv6Addr`: special cases for the unspecified
address, loopback and IPv4-mapped addresses, otherwise lowercase hex groups
with the leftmost longest run of two or more zero groups compressed to `::`. -/
def ipv6Display (x : Ipv6) : List Char :=
  match x.groups with
  | [0, 0, 0, 0, 0, 0, 0, 0] => [':', ':']
  | [0, 0, 0, 0, 0, 0, 0, 1] => [':', ':', '1']
  | [0, 0, 0, 0, 0, 65535, g6, g7] =>
    [':', ':', 'f', 'f', 'f', 'f', ':'] ++
      ipv4Display ⟨g6 / 256, g6 % 256, g7 / 256, g7 % 256⟩
  | gs =>
    let z := longestZeroRun gs
    if z.2 > 1 then
      joinColon ((gs.take z.1).map natToHex) ++ ':' :: ':' ::
        joinColon ((gs.drop (z.1 + z.2)).map natToHex)
    else joinColon (gs.map natToHex)

/-- Model of `IpAddr` (the enum over v4 and v6). -/
inductive IpAddrM where
  | v4 (a : Ipv4)
  | v6 (a : Ipv6)
deriving DecidableEq, Repr

/-- Model of `IpAddr::from_str`: IPv4 first, then IPv6. -/
def ipFromStr (s : List Char) : Option IpAddrM :=
  match ipv4Parse s with
  | some a => some (.v4 a)
  | none => (ipv6Parse s).map .v6

/-- Model of `Display for IpAddr`. -/
def ipDisplay : IpAddrM → List Char
  | .v4 a => ipv4Display a
  | .v6 a => ipv6Display a

/-! ## URL model (the `url` crate)

`url::Url::parse` implements the WHATWG URL standard.  The model below covers
the fragment this client exercises: absolute URLs with a syntactically valid
scheme; for the special schemes `http`/`https` an authority with a host
(bracketed IPv6 literals validated and canonicalized, other hosts restricted
to a conservative registered-name character set with IPv4 literals detected
and canonicalized) and an optional decimal port below 2^16 with default ports
elided from the serialization; an empty path serializing as `/`.  Not
modelled (all irrelevant to the inputs this development evaluates): userinfo,
percent-encoding and IDNA in hosts, WHATWG IPv4 quirks such as `127.1`,
path/dot-segment normalization, the lenient `http:host` form without `//`,
leading/trailing C0-control trimming, and special schemes other than
`http`/`https`. -/

/-- A parsed URL: scheme, serialized host (brackets included for IPv6),
explicit non-default port, and the serialized path-query-fragment tail.
Non-special schemes keep an opaque tail with no authority. -/
structure ModelUrl where
  scheme : String
  hostSer : String
  port : Option Nat
  pathRest : String
  isSpecial : Bool
deriving DecidableEq, Repr

/-- Characters allowed after the first in a URL scheme. -/
def schemeChar (c : Char) : Bool := c.isAlphanum || c = '+' || c = '-' || c = '.'

/-- Conservative registered-name host characters accepted by the model. -/
def regNameChar (c : Char) : Bool := c.isAlphanum || c = '.' || c = '-' || c = '_' || c = '~' || c = '%'

/-- Default port of a special scheme. -/
def defaultPort (scheme : String) : Nat := if scheme = "https" then 443 else 80

/-- Parses the port section after the host (already past the `:`): empty means
no port, otherwise decimal digits below 2^16, the scheme default stored as
`none` (the `url` crate never records default ports). -/
def parsePortPart (scheme : String) (pcs : List Char) : Option (Option Nat) :=
  if pcs.isEmpty then some none
  else if pcs.all Char.isDigit then
    let v := decFold pcs
    if v ≥ 65536 then none
    else if v = defaultPort scheme then some none
    else some (some v)
  else none

/-- Parses an authority (the part between `//` and the path) into a serialized
host and an optional port. -/
def parseAuthority (scheme : String) (auth : List Char) : Option (List Char × Option Nat) :=
  if auth.isEmpty then none
  else if auth.any (· = '@') then none
  else if auth.head? = some '[' then
    match splitFirstCh ']' auth.tail with
    | none => none
    | some (content, after) =>
      match ipv6Parse content with
      | none => none
      | some a =>
        let h := '[' :: ipv6Display a ++ [']']
        match after with
        | [] => some (h, none)
        | ':' :: pcs => (parsePortPart scheme pcs).map (fun p => (h, p))
        | _ => none
  else
    let host := auth.takeWhile (· ≠ ':')
    let rest := auth.dropWhile (· ≠ ':')
    if host.isEmpty then none
    else if ¬ host.all regNameChar then none
    else
      let hser := match ipv4Parse host with
        | some a4 => ipv4Display a4
        | none => host.map toLowerCh
      match rest with
      | [] => some (hser, none)
      | ':' :: pcs => (parsePortPart scheme pcs).map (fun p => (hser, p))
      | _ => none

/-- Serialized path tail: an empty path of a special-scheme URL serializes as
`/`, and a query or fragment directly after the authority gets `/` prefixed. -/
def pathOf (after : List Char) : List Char :=
  match after with
  | [] => ['/']
  | '?' :: _ => '/' :: after
  | '#' :: _ => '/' :: after
  | _ => after

/-- Model of `url::Url::parse`, restricted as described above. -/
def ModelUrl.parse (cs : List Char) : Option ModelUrl :=
  match cs with
  | [] => none
  | c :: _ =>
    if ¬ c.isAlpha then none
    else
      match splitFirstCh ':' cs with
      | none => none
      | some (schRaw, rest) =>
        if ¬ schRaw.all schemeChar then none
        else
          let sch := schRaw.map toLowerCh
          if sch = "http".data ∨ sch = "https".data then
            match rest with
            | '/' :: '/' :: rest2 =>
              let auth := rest2.takeWhile (fun c => ¬(c = '/' ∨ c = '?' ∨ c = '#'))
              let after := rest2.dropWhile (fun c => ¬(c = '/' ∨ c = '?' ∨ c = '#'))
              (parseAuthority ⟨sch⟩ auth).map (fun hp =>
                { scheme := ⟨sch⟩, hostSer := ⟨hp.1⟩, port := hp.2,
                  pathRest := ⟨pathOf after⟩, isSpecial := true })
            | _ => none
          else
            some { scheme := ⟨sch⟩, hostSer := "", port := none,
                   pathRest := ⟨rest⟩, isSpecial := false }

/-- Serialization of a parsed URL (`Url::as_str`). -/
def ModelUrl.serialization (u : ModelUrl) : String :=
  if u.isSpecial then
    u.scheme ++ "://" ++ u.hostSer ++
      (match u.port with
       | some p => ":" ++ ⟨natToDec p⟩
       | none => "") ++ u.pathRest
  else u.scheme ++ ":" ++ u.pathRest

/-- Model of `Url::port_or_known_default`. -/
def ModelUrl.portOrKnownDefault (u : ModelUrl) : Option Nat :=
  match u.port with
  | some p => some p
  | none => if u.isSpecial then some (defaultPort u.scheme) else none

/-! ## The address normalizer (`parse_url_or_ip`, `src/main.rs:66-108`) -/

/-- Translation of `parse_url_or_ip`: try `Url::parse` on the input unchanged;
then the `[ipv6]:port` bracket form; then a trailing `:port` after an IP
prefix; then a bare IP; otherwise fail.  The `format!`/re-parse steps and
their `context` error messages follow the source line by line (string indices
are modelled in characters, which agrees with the byte indices of the source
on the ASCII inputs the grammar accepts). -/
def parse_url_or_ip (input : List Char) : Except String ModelUrl :=
  match ModelUrl.parse input with
  | some url => .ok url
  | none =>
    let brTry : Option (Except String ModelUrl) :=
      match findSubIdx [']', ':'] input with
      | none => none
      | some be =>
        match input with
        | '[' :: _ =>
          let ip_part := (input.take be).drop 1
          let port_part := input.drop (be + 2)
          match parseUIntRust 65535 port_part with
          | none => none
          | some _ =>
            match ipFromStr ip_part with
            | none => none
            | some ip =>
              some
                (match ModelUrl.parse ("http://[".data ++ ipDisplay ip ++ ']' :: ':' :: port_part) with
                 | some u => .ok u
                 | none => .error "Failed to convert IP address with port to URL")
        | _ => none
    match brTry with
    | some r => r
    | none =>
      let colonTry : Option (Except String ModelUrl) :=
        match rfindCh ':' input with
        | none => none
        | some cp =>
          let ip_part := input.take cp
          let port_part := input.drop (cp + 1)
          match parseUIntRust 65535 port_part with
          | none => none
          | some _ =>
            match ipFromStr ip_part with
            | none => none
            | some ip =>
              some
                (match ModelUrl.parse ("http://".data ++ ipDisplay ip ++ ':' :: port_part) with
                 | some u => .ok u
                 | none => .error "Failed to convert IP address with port to URL")
      match colonTry with
      | some r => r
      | none =>
        match ipFromStr input with
        | some ip =>
          (match ModelUrl.parse ("http://".data ++ ipDisplay ip) with
           | some u => .ok u
           | none => .error "Failed to convert IP address to URL")
        | none => .error ("Invalid URL or IP address: " ++ ⟨input⟩)

/-! ## Percent encoding (the `urlencoding` crate)

`urlencoding::encode` keeps the unreserved characters `A-Z a-z 0-9 - _ . ~`
and percent-encodes every other byte of the UTF-8 encoding with uppercase
hex. -/

/-- Uppercase hex digit. -/
def hexCharU (n : Nat) : Char := if n < 10 then Char.ofNat (48 + n) else Char.ofNat (55 + n)

/-- UTF-8 bytes of one character. -/
def utf8Bytes (c : Char) : List Nat :=
  let n := c.toNat
  if n < 128 then [n]
  else if n < 2048 then [192 + n / 64, 128 + n % 64]
  else if n < 65536 then [224 + n / 4096, 128 + (n / 64) % 64, 128 + n % 64]
  else [240 + n / 262144, 128 + (n / 4096) % 64, 128 + (n / 64) % 64, 128 + n % 64]

/-- Model of `urlencoding::encode`. -/
def urlencode (s : String) : String :=
  ⟨s.data.foldr
    (fun c acc =>
      if c.isAlphanum || c = '-' || c = '_' || c = '.' || c = '~' then c :: acc
      else (utf8Bytes c).foldr (fun b a => '%' :: hexCharU (b / 16) :: hexCharU (b % 16) :: a) acc)
    []⟩

/-! ## JSON model for the auth challenge (`serde_json` on `K1Response`)

`parse_k1_from_challenge` deserializes `{"k1": "<token>"}` through
`serde_json::from_str::<K1Response>` where `K1Response` has the single string
field `k1` and, per serde defaults, ignores unknown fields.  The model below
parses a flat JSON object whose member values are strings, numbers, booleans
or null (no nested containers, no `\u` escapes — neither occurs in an LNURL
challenge), extracting the `k1` member, rejecting a missing, duplicated or
non-string `k1` and trailing garbage.  Error messages are abbreviations of
serde's; no theorem depends on their text. -/

/-- JSON whitespace. -/
def jWs (c : Char) : Bool := c = ' ' || c = '\t' || c = '\n' || c = '\r'

/-- Drop leading JSON whitespace. -/
def skipWs (s : List Char) : List Char := s.dropWhile jWs

/-- Reads a JSON string body after the opening quote, handling the
single-character escapes; returns the decoded content and the input after the
closing quote. -/
def readJStrAux : Nat → List Char → Option (List Char × List Char)
  | 0, _ => none
  | _, [] => none
  | fuel + 1, c :: rest =>
    if c = '"' then some ([], rest)
    else if c = '\\' then
      match rest with
      | [] => none
      | e :: rest2 =>
        let esc : Option Char :=
          if e = '"' then some '"'
          else if e = '\\' then some '\\'
          else if e = '/' then some '/'
          else if e = 'n' then some '\n'
          else if e = 't' then some '\t'
          else if e = 'r' then some '\r'
          else if e = 'b' then some (Char.ofNat 8)
          else if e = 'f' then some (Char.ofNat 12)
          else none
        match esc with
        | none => none
        | some d => (readJStrAux fuel rest2).map (fun p => (d :: p.1, p.2))
    else if c.toNat < 32 then none
    else (readJStrAux fuel rest).map (fun p => (c :: p.1, p.2))

/-- A scalar JSON value: a string, or anything serde would deserialize and
this model only needs to skip. -/
inductive JVal where
  | str (s : List Char)
  | other

/-- Reads one scalar JSON value. -/
def readJVal (fuel : Nat) (s : List Char) : Option (JVal × List Char) :=
  match skipWs s with
  | '"' :: rest => (readJStrAux fuel rest).map (fun p => (.str p.1, p.2))
  | 't' :: 'r' :: 'u' :: 'e' :: r => some (.other, r)
  | 'f' :: 'a' :: 'l' :: 's' :: 'e' :: r => some (.other, r)
  | 'n' :: 'u' :: 'l' :: 'l' :: r => some (.other, r)
  | s1 =>
    let numChar := fun (c : Char) => c.isDigit || c = '-' || c = '+' || c = '.' || c = 'e' || c = 'E'
    let digs := s1.takeWhile numChar
    if digs.isEmpty then none else some (.other, s1.dropWhile numChar)

/-- Member loop of the object parser: `first` marks the position right after
`\x7b`, `acc` the `k1` value seen so far. -/
def jMembers : Nat → Bool → Option (List Char) → List Char → Except String String
  | 0, _, _, _ => .error "recursion limit exceeded"
  | fuel + 1, first, acc, s =>
    match skipWs s with
    | '\x7d' :: rest =>
      if (skipWs rest).isEmpty then
        match acc with
        | some v => .ok ⟨v⟩
        | none => .error "missing field k1"
      else .error "trailing characters"
    | s1 =>
      let afterComma : Option (List Char) :=
        if first then some s1
        else
          match s1 with
          | ',' :: r => some (skipWs r)
          | _ => none
      match afterComma with
      | none => .error "expected comma"
      | some s3 =>
        match s3 with
        | '"' :: rest =>
          match readJStrAux (fuel + 1) rest with
          | none => .error "bad string"
          | some (key, r1) =>
            match skipWs r1 with
            | ':' :: r2 =>
              match readJVal (fuel + 1) r2 with
              | none => .error "bad value"
              | some (v, r3) =>
                if key = "k1".data then
                  match acc, v with
                  | some _, _ => .error "duplicate field k1"
                  | none, .str sv => jMembers fuel false (some sv) r3
                  | none, .other => .error "invalid type for field k1"
                else jMembers fuel false acc r3
            | _ => .error "expected colon"
        | _ => .error "key must be a string"

/-- Model of `serde_json::from_str::<K1Response>` (restricted as described):
parses a flat object and extracts the `k1` string member. -/
def k1FromJson (s : List Char) : Except String String :=
  match skipWs s with
  | '\x7b' :: rest => jMembers (s.length + 2) true none rest
  | _ => .error "invalid type: expected a map"

/-- Translation of `parse_k1_from_challenge` (`src/main.rs:461-470`): trim
the body; a body starting with `\x7b` is deserialized as `K1Response`,
anything else is the token itself. -/
def parse_k1_from_challenge (body : String) : Except String String :=
  let b := trimChars body.data
  if b.head? = some '\x7b' then k1FromJson b
  else .ok ⟨b⟩

/-! ## Effects and oracles

Each flow is embedded as a function from an oracle — one field per external
call the source makes, holding the result that call returns — to the ordered
list of effects the flow performs and its final outcome.  An effect is
recorded at the moment the source issues the call, before its result is
examined, so a trace shows exactly which HTTP requests and node-RPC calls were
made and with which arguments. -/

/-- One observable external call. -/
inductive Effect where
  | rpcNewClient (path : String)
  | httpGet (url : String) (timeout : Option Nat)
  | rpcGetinfo
  | rpcConnect (id : String) (host : Option String) (port : Option Nat)
  | rpcInvoice (amountMsat : Nat) (description : String) (label : String)
  | rpcSignMessage (message : String)
deriving DecidableEq, Repr

/-- Outcome of a flow that can also die by an uncaught panic (index out of
bounds): `ok`, an `anyhow` error carrying its display string, or a panic. -/
inductive POutcome (α : Type) where
  | ok (a : α)
  | err (msg : String)
  | panics
deriving DecidableEq, Repr

/-- Result of a `ureq` GET whose error the source only converts to a string
(`e.to_string()` or `?`): either the 2xx branch with the `into_json` /
`into_string` result, or an error display string. -/
inductive SimpleCall (α : Type) where
  | ok (parsed : Except String α)
  | errDisplay (msg : String)

/-- Result of a `ureq` GET whose error the source matches on
`ureq::Error::Status`: the 2xx branch with the `into_json` result, a non-2xx
status with its code and `into_string` body (`none` when reading the body
itself failed), or a transport error display string. -/
inductive CallResult (α : Type) where
  | ok (parsed : Except String α)
  | status (code : Nat) (bodyRes : Option String)
  | transport (msg : String)

/-- Result of one CLN RPC call: the expected response variant, an RPC error
display string, or an unexpected response variant. -/
inductive RpcResult (α : Type) where
  | ok (a : α)
  | err (msg : String)
  | unexpected

/-- Response from `GET /request-channel` (`ChannelRequestResponse`). -/
structure ChannelRequestResponse where
  uri : String
  callback : String
  k1 : String
  tag : String
deriving DecidableEq, Repr

/-- Response from the channel-open callback (`ChannelOpenResponse`). -/
structure ChannelOpenResponse where
  status : String
  reason : Option String
  txid : Option String
  channel_id : Option String
deriving DecidableEq, Repr

/-- Response from `GET /request-withdraw` (`WithdrawRequestResponse`). -/
structure WithdrawRequestResponse where
  callback : String
  k1 : String
  tag : String
  default_description : String
  min_withdrawable : Nat
  max_withdrawable : Nat
deriving DecidableEq, Repr

/-- Response from the withdraw callback (`WithdrawResponse`). -/
structure WithdrawResponse where
  status : String
  reason : Option String
deriving DecidableEq, Repr

/-- Response from the auth callback (`AuthResponse`). -/
structure AuthResponse where
  status : String
  reason : Option String
deriving DecidableEq, Repr

/-- The default CLN RPC socket path of `get_cln_rpc_path`. -/
def defaultClnRpcPath : String := "/home/ugo/.lightning/testnet4/lightning-rpc"

/-- Model of `get_cln_rpc_path`: the `CLN_RPC_PATH` environment variable when
set, the testnet4 default otherwise. -/
def get_cln_rpc_path (env : Option String) : String := env.getD defaultClnRpcPath

/-! ## Lightning RPC helpers (`src/main.rs:183-223`) -/

/-- Translation of `get_node_uri`: one `getinfo` call, building
`pubkey@127.0.0.1:49735` from the node id on success. -/
def get_node_uri (getinfo : RpcResult String) : List Effect × Except String String :=
  match getinfo with
  | .ok pubkey => ([.rpcGetinfo], .ok (pubkey ++ "@" ++ "127.0.0.1:49735"))
  | .err e => ([.rpcGetinfo], .error ("Failed to get node info: " ++ e))
  | .unexpected => ([.rpcGetinfo], .error "Unexpected response type")

/-- Translation of `connect_to_node`: split the URI at `@` (exactly two
pieces), parse the pubkey (`secp256k1::PublicKey::from_str`, modelled as the
oracle `pkParse` returning the display form of the key or an error), then
index piece `[1]` of the `:`-split of the host part — the source performs
this indexing without a length check, so a host containing no `:` is a panic
(`POutcome.panics`) — parse the host prefix as `Ipv4Addr`, and issue the
`connect` RPC. -/
def connect_to_node (pkParse : String → Except String String)
    (connectRpc : Except String Unit) (node_uri : String) :
    List Effect × POutcome Unit :=
  match splitChar '@' node_uri.data with
  | [p0, p1] =>
    (match pkParse ⟨p0⟩ with
     | .error e => ([], .err e)
     | .ok pubkey =>
       match splitChar ':' p1 with
       | [_] => ([], .panics)
       | [] => ([], .panics)
       | piece0 :: piece1 :: _ =>
         match ipv4Parse piece0 with
         | none => ([], .err "invalid IPv4 address syntax")
         | some ip =>
           let fx : List Effect :=
             [.rpcConnect pubkey (some ⟨ipv4Display ip⟩) (parseUIntRust 65535 piece1)]
           match connectRpc with
           | .error e => (fx, .err e)
           | .ok () => (fx, .ok ()))
  | _ => ([], .err ("Invalid node URI: " ++ node_uri))

/-! ## Channel request flow (`channel_request`, `src/main.rs:251-320`) -/

/-- External-call results consumed by one run of `channel_request`. -/
structure ChannelOracle where
  rtBuild : Except String Unit
  envClnRpcPath : Option String
  rpcNew : Except String Unit
  getinfo : RpcResult String
  paramsFetch : SimpleCall ChannelRequestResponse
  pkParse : String → Except String String
  connect : Except String Unit
  callbackFetch : SimpleCall ChannelOpenResponse

/-- Translation of `channel_request`: build the runtime and RPC client, get
the node URI, `GET {base}/request-channel` with the 60-second `HTTP_TIMEOUT`
(the error branch decorating timeout/connection messages), connect to the
server-supplied peer URI, then `GET` the callback with `remoteid` and `k1` —
whose parsed `ChannelOpenResponse` is reported as success regardless of its
`status` field, exactly as the source does. -/
def channel_request (o : ChannelOracle) (url : ModelUrl) : List Effect × POutcome Unit :=
  match o.rtBuild with
  | .error _ => ([], .err "Failed to create Tokio runtime")
  | .ok () =>
    let path := get_cln_rpc_path o.envClnRpcPath
    match o.rpcNew with
    | .error e => ([.rpcNewClient path], .err e)
    | .ok () =>
      let n := get_node_uri o.getinfo
      match n.2 with
      | .error e => (.rpcNewClient path :: n.1, .err e)
      | .ok node_uri =>
        let request_url := trimEndMatchesSlash url.serialization ++ "/request-channel"
        let fx2 := .rpcNewClient path :: n.1 ++ [.httpGet request_url (some 60)]
        match o.paramsFetch with
        | .errDisplay msg =>
          let m := if containsSub "timed out".data msg.data || containsSub "connection".data msg.data then
              msg ++ ". Check: same network (e.g. 192.168.x.x), firewall, server listening on 0.0.0.0:" ++
                (⟨natToDec (url.portOrKnownDefault.getD 80)⟩ : String)
            else msg
          (fx2, .err m)
        | .ok (.error e) => (fx2, .err e)
        | .ok (.ok resp) =>
          let c := connect_to_node o.pkParse o.connect resp.uri
          match c.2 with
          | .panics => (fx2 ++ c.1, .panics)
          | .err e => (fx2 ++ c.1, .err e)
          | .ok () =>
            let pubkey : String := ⟨(splitChar '@' node_uri.data).headD []⟩
            let open_url := resp.callback ++ "?remoteid=" ++ pubkey ++ "&k1=" ++ resp.k1
            let fx4 := fx2 ++ c.1 ++ [.httpGet open_url none]
            match o.callbackFetch with
            | .errDisplay msg => (fx4, .err ("Failed to open channel: " ++ msg))
            | .ok (.error e) => (fx4, .err e)
            | .ok (.ok _open_resp) => (fx4, .ok ())

/-! ## Withdraw request flow (`withdraw_request`, `src/main.rs:350-446`) -/

/-- External-call results consumed by one run of `withdraw_request`. -/
structure WithdrawOracle where
  rtBuild : Except String Unit
  envClnRpcPath : Option String
  rpcNew : Except String Unit
  paramsFetch : SimpleCall WithdrawRequestResponse
  nowMillis : Nat
  invoice : RpcResult String
  callbackFetch : CallResult WithdrawResponse

/-- Translation of `withdraw_request`: fetch the withdraw parameters (no
explicit timeout on this `ureq` call), reject an amount strictly outside
`[min_withdrawable, max_withdrawable]` naming the range, resolve the
description, create an invoice with a time-derived label, `GET` the callback
with `k1` and the url-encoded invoice, and map its outcome: a non-2xx status
surfaces the body verbatim, a parsed response succeeds exactly on
`status == "OK"` and otherwise fails with the reason, defaulting to
`Unknown error`. -/
def withdraw_request (o : WithdrawOracle) (url : ModelUrl) (amount_msat : Nat)
    (description : Option String) : List Effect × Except String Unit :=
  match o.rtBuild with
  | .error _ => ([], .error "Failed to create Tokio runtime")
  | .ok () =>
    let path := get_cln_rpc_path o.envClnRpcPath
    match o.rpcNew with
    | .error e => ([.rpcNewClient path], .error e)
    | .ok () =>
      let request_url := trimEndMatchesSlash url.serialization ++ "/request-withdraw"
      let fx1 : List Effect := [.rpcNewClient path, .httpGet request_url none]
      match o.paramsFetch with
      | .errDisplay msg => (fx1, .error msg)
      | .ok (.error e) => (fx1, .error e)
      | .ok (.ok resp) =>
        if amount_msat < resp.min_withdrawable ∨ amount_msat > resp.max_withdrawable then
          (fx1, .error ("Amount " ++ ⟨natToDec amount_msat⟩ ++
            " msat is outside allowed range [" ++ ⟨natToDec resp.min_withdrawable⟩ ++
            ", " ++ ⟨natToDec resp.max_withdrawable⟩ ++ "]"))
        else
          let description := description.getD resp.default_description
          let label := "lnurl-withdraw-" ++ ⟨natToDec o.nowMillis⟩
          let fx2 := fx1 ++ [.rpcInvoice amount_msat description label]
          match o.invoice with
          | .err e => (fx2, .error e)
          | .unexpected => (fx2, .error "Unexpected response type from invoice request")
          | .ok bolt11 =>
            let withdraw_url := resp.callback ++ "?k1=" ++ resp.k1 ++ "&pr=" ++ urlencode bolt11
            let fx3 := fx2 ++ [.httpGet withdraw_url none]
            match o.callbackFetch with
            | .ok (.error e) => (fx3, .error e)
            | .ok (.ok w) =>
              (fx3, if w.status = "OK" then .ok ()
                else .error ("Withdrawal failed: " ++ w.reason.getD "Unknown error"))
            | .status code bodyRes =>
              (fx3, .error ("Withdraw request failed (HTTP " ++ ⟨natToDec code⟩ ++ "): " ++
                bodyRes.getD "(no body)"))
            | .transport d => (fx3, .error ("Withdraw request failed: " ++ d))

/-! ## Auth request flow (`auth_request`, `src/main.rs:475-544`) -/

/-- External-call results consumed by one run of `auth_request`. -/
structure AuthOracle where
  rtBuild : Except String Unit
  envClnRpcPath : Option String
  rpcNew : Except String Unit
  getinfo : RpcResult String
  challengeFetch : SimpleCall String
  signmessage : RpcResult String
  responseFetch : CallResult AuthResponse

/-- Translation of `auth_request`: get the node pubkey, `GET
{base}/auth-challenge` (no explicit timeout), parse `k1` from the body in
either accepted shape, sign it, `GET {base}/auth-response` with `k1`,
signature and pubkey url-encoded, and map the outcome exactly as the withdraw
callback, with the auth message texts. -/
def auth_request (o : AuthOracle) (url : ModelUrl) : List Effect × Except String Unit :=
  let base := trimEndMatchesSlash url.serialization
  match o.rtBuild with
  | .error _ => ([], .error "Failed to create Tokio runtime")
  | .ok () =>
    let path := get_cln_rpc_path o.envClnRpcPath
    match o.rpcNew with
    | .error e => ([.rpcNewClient path], .error e)
    | .ok () =>
      let fx0 : List Effect := [.rpcNewClient path, .rpcGetinfo]
      match o.getinfo with
      | .err e => (fx0, .error e)
      | .unexpected => (fx0, .error "Unexpected response type from getinfo")
      | .ok pubkey =>
        let challenge_url := base ++ "/auth-challenge"
        let fx1 := fx0 ++ [.httpGet challenge_url none]
        match o.challengeFetch with
        | .errDisplay msg => (fx1, .error msg)
        | .ok (.error e) => (fx1, .error e)
        | .ok (.ok body) =>
          match parse_k1_from_challenge body with
          | .error e => (fx1, .error e)
          | .ok k1 =>
            let fx2 := fx1 ++ [.rpcSignMessage k1]
            match o.signmessage with
            | .err e => (fx2, .error e)
            | .unexpected => (fx2, .error "Unexpected response type from signmessage")
            | .ok signature =>
              let response_url := base ++ "/auth-response?k1=" ++ urlencode k1 ++
                "&signature=" ++ urlencode signature ++ "&pubkey=" ++ urlencode pubkey
              let fx3 := fx2 ++ [.httpGet response_url none]
              match o.responseFetch with
              | .ok (.error e) => (fx3, .error e)
              | .ok (.ok a) =>
                (fx3, if a.status = "OK" then .ok ()
                  else .error ("Authentication failed: " ++ a.reason.getD "Unknown error"))
              | .status code bodyRes =>
                (fx3, .error ("Auth response failed (HTTP " ++ ⟨natToDec code⟩ ++ "): " ++
                  bodyRes.getD "(no body)"))
              | .transport d => (fx3, .error ("Auth request failed: " ++ d))

/-! ## CLI parsing and entry point (`parse_args`, `main`, `src/main.rs:111-175, 551-577`) -/

/-- The parsed subcommands (`Commands`). -/
inductive Commands where
  | requestChannel (url : ModelUrl)
  | requestWithdraw (url : ModelUrl) (amount_msat : Nat) (description : Option String)
  | requestAuth (url : ModelUrl)
deriving DecidableEq, Repr

/-- The stderr lines of `print_usage`. -/
def usage_lines : List String :=
  ["Usage:",
   "  lnurl-client request-channel <url|ip>",
   "  lnurl-client request-withdraw <url|ip> <amount_msat> [description]",
   "  lnurl-client request-auth <url|ip>"]

/-- Translation of `parse_args` over the argument vector (element 0 is the
program name, as in `std::env::args`): returns the stderr lines printed while
parsing (usage is printed only for a missing or unknown command) and the
parsed command or the error message `main` will report.  The amount uses the
`u64` `FromStr` model; the error texts are the source's literal messages,
with `context` replacing the amount parse error. -/
def parse_args (argv : List String) : List String × Except String Commands :=
  match argv with
  | [] => (usage_lines, .error "No command provided")
  | [_] => (usage_lines, .error "No command provided")
  | _ :: cmd :: rest =>
    if cmd = "request-channel" then
      match rest with
      | [] => ([], .error "request-channel requires a <url> argument")
      | [u] =>
        (match parse_url_or_ip u.data with
         | .ok url => ([], .ok (.requestChannel url))
         | .error e => ([], .error e))
      | _ => ([], .error "request-channel does not accept additional arguments")
    else if cmd = "request-withdraw" then
      match rest with
      | [] => ([], .error "request-withdraw requires <url> and <amount_msat> arguments")
      | [_] => ([], .error "request-withdraw requires <url> and <amount_msat> arguments")
      | [u, a] =>
        (match parse_url_or_ip u.data with
         | .error e => ([], .error e)
         | .ok url =>
           match parseUIntRust 18446744073709551615 a.data with
           | none => ([], .error "amount_msat must be a valid number")
           | some amt => ([], .ok (.requestWithdraw url amt none)))
      | [u, a, d] =>
        (match parse_url_or_ip u.data with
         | .error e => ([], .error e)
         | .ok url =>
           match parseUIntRust 18446744073709551615 a.data with
           | none => ([], .error "amount_msat must be a valid number")
           | some amt => ([], .ok (.requestWithdraw url amt (some d))))
      | _ => ([], .error "request-withdraw accepts at most 3 arguments: <url> <amount_msat> [description]")
    else if cmd = "request-auth" ∨ cmd = "lnurl-auth" then
      match rest with
      | [] => ([], .error "request-auth requires a <url> argument")
      | [u] =>
        (match parse_url_or_ip u.data with
         | .ok url => ([], .ok (.requestAuth url))
         | .error e => ([], .error e))
      | _ => ([], .error "request-auth does not accept additional arguments")
    else (usage_lines, .error ("Unknown command: " ++ cmd))

/-- Outcome of one process run: the external effects performed, the stderr
lines, and the process exit code (0 success, 1 reported error, 101 panic). -/
structure MainOutcome where
  effects : List Effect
  stderr : List String
  exitCode : Nat
deriving DecidableEq, Repr

/-- Translation of `main`: parse the arguments — on failure print
`Error: {e}` after whatever `parse_args` printed and exit 1 without invoking
any flow (every HTTP and node-RPC effect originates inside the three flow
functions) — otherwise run the selected flow and report its result. -/
def main_model (co : ChannelOracle) (wo : WithdrawOracle) (ao : AuthOracle)
    (argv : List String) : MainOutcome :=
  match parse_args argv with
  | (lines, .error e) => ⟨[], lines ++ ["Error: " ++ e], 1⟩
  | (lines, .ok cmd) =>
    let run : List Effect × POutcome Unit :=
      match cmd with
      | .requestChannel url => channel_request co url
      | .requestWithdraw url amt d =>
        let r := withdraw_request wo url amt d
        (r.1, match r.2 with
              | .ok a => .ok a
              | .error e => .err e)
      | .requestAuth url =>
        let r := auth_request ao url
        (r.1, match r.2 with
              | .ok a => .ok a
              | .error e => .err e)
    match run.2 with
    | .ok () => ⟨run.1, lines, 0⟩
    | .err e => ⟨run.1, lines ++ ["Error: " ++ e], 1⟩
    | .panics => ⟨run.1, lines, 101⟩

/-! ## Derived observations and concrete instances used by the theorems -/

/-- The timeout settings of the HTTP calls of a trace, in order. -/
def httpTimeouts (fx : List Effect) : List (Option Nat) :=
  fx.filterMap fun e =>
    match e with
    | .httpGet _ t => some t
    | _ => none

/-- Is this effect the invoice-creation RPC? -/
def Effect.isInvoiceRpc : Effect → Bool
  | .rpcInvoice _ _ _ => true
  | _ => false

/-- Is this effect an HTTP GET? -/
def Effect.isHttpCall : Effect → Bool
  | .httpGet _ _ => true
  | _ => false

/-- Claim C2 as stated: one bounded timeout applied to every HTTP call of
every run of each of the three flows. -/
def uniformTimeoutClaim : Prop :=
  ∃ T, (∀ co u, ∀ t ∈ httpTimeouts (channel_request co u).1, t = some T) ∧
       (∀ wo u a d, ∀ t ∈ httpTimeouts (withdraw_request wo u a d).1, t = some T) ∧
       (∀ ao u, ∀ t ∈ httpTimeouts (auth_request ao u).1, t = some T)

/-- A character that needs no JSON string escaping: not a quote, not a
backslash, not a control character. -/
def jsonSafeChar (c : Char) : Bool := c != '"' && c != '\\' && decide (32 ≤ c.toNat)

/-- The JSON challenge body `\x7b"k1": "<t>"\x7d` carrying the token `t`. -/
def jsonK1Body (t : List Char) : List Char :=
  '\x7b' :: '"' :: 'k' :: '1' :: '"' :: ':' :: '"' :: t ++ ['"', '\x7d']

/-- A canonical parsed base URL used to instantiate flow runs. -/
def cexUrl : ModelUrl := ⟨"http", "example.com", none, "/", true⟩

/-- A pubkey-parse oracle that accepts every string (standing for a run in
which the pubkey part is a valid secp256k1 key). -/
def acceptAllPkParse : String → Except String String := fun s => .ok s

/-- A fully successful channel oracle whose callback outcome has
`status = "ERROR"` and a reason — the failing input of claim C1. -/
def errStatusChannelOracle : ChannelOracle :=
  ⟨.ok (), none, .ok (), .ok "02aa",
   .ok (.ok ⟨"02bb@127.0.0.1:9735", "http://cb", "k1v", "channelRequest"⟩),
   acceptAllPkParse, .ok (),
   .ok (.ok ⟨"ERROR", some "too slow", none, none⟩)⟩

/-- A fully successful channel oracle (callback `status = "OK"`). -/
def okChannelOracle : ChannelOracle :=
  ⟨.ok (), none, .ok (), .ok "02aa",
   .ok (.ok ⟨"02bb@127.0.0.1:9735", "http://cb", "k1v", "channelRequest"⟩),
   acceptAllPkParse, .ok (),
   .ok (.ok ⟨"OK", none, none, none⟩)⟩

/-- A withdraw oracle whose fetched parameters allow `[10, 20]` msat. -/
def rangeWithdrawOracle : WithdrawOracle :=
  ⟨.ok (), none, .ok (),
   .ok (.ok ⟨"http://cb", "k1v", "withdrawRequest", "dd", 10, 20⟩),
   1234, .ok "lnbc1qqq", .ok (.ok ⟨"OK", none⟩)⟩

/-- A withdraw oracle whose callback answers HTTP 404 with an error body. -/
def statusErrWithdrawOracle : WithdrawOracle :=
  ⟨.ok (), none, .ok (),
   .ok (.ok ⟨"http://cb", "k1v", "withdrawRequest", "dd", 10, 20⟩),
   1234, .ok "lnbc1qqq", .status 404 (some "payment failed")⟩

/-- An auth oracle whose response outcome is `status = "ERROR"` with a reason. -/
def statusErrAuthOracle : AuthOracle :=
  ⟨.ok (), none, .ok (), .ok "02aa", .ok (.ok "abc123"), .ok "zbasesig",
   .ok (.ok ⟨"ERROR", some "bad sig"⟩)⟩

/-- The peer URI of claim C4's failing input: a syntactically valid pubkey
followed by a host with no `:port`. -/
def portlessPeerUri : String :=
  "02eec7245d6b7d2ccb30380bfbe2a3648cd7a942653f5aa340edcea1f283686619@127.0.0.1"

/-! # Theorems

First the supporting lemmas about the embedded definitions, then one theorem
per claim of the specification (with its witness or counterexample where
required). -/

/-! ## Claim C10 — the undocumented `lnurl-auth` alias -/

/-- C10: the CLI accepts `lnurl-auth` as an alias for `request-auth`: for
every argument vector whose command word is `lnurl-auth`, `parse_args` yields
exactly the same result (same command or same error) as the identical vector
with command word `request-auth`. -/
theorem lnurl_auth_alias (prog : String) (rest : List String) :
    parse_args (prog :: "lnurl-auth" :: rest) = parse_args (prog :: "request-auth" :: rest) := rfl

/-! ## Claim C1 — the channel flow ignores the callback `status` -/

/-- C1 (code bug): the claim says the channel flow ends `Failed` with the
reason whenever the callback outcome has `status ≠ OK`; the source never
examines `status` (`src/main.rs:303-319`), so a run whose callback outcome is
`status = "ERROR"`, `reason = "too slow"` still returns `Ok(())` and reports
success. -/
theorem channel_flow_ignores_error_status :
    errStatusChannelOracle.callbackFetch = .ok (.ok ⟨"ERROR", some "too slow", none, none⟩) ∧
    (channel_request errStatusChannelOracle cexUrl).2 = .ok () := ⟨rfl, rfl⟩

/-! ## Claim C4 — malformed peer URIs can panic -/

/-- C4 (code bug): the claim says malformed peer URIs produce a fatal error
value, never a panic or out-of-bounds access; but `connect_to_node`
(`src/main.rs:210`) indexes `host.split(':')[1]` without a length check, so a
URI whose host part has no colon — here a valid 66-hex-character pubkey with
host `127.0.0.1` and no port — makes the source panic with an out-of-bounds
index instead of returning an error. -/
theorem connect_to_node_panics_without_port :
    connect_to_node acceptAllPkParse (.ok ()) portlessPeerUri = ([], .panics) := rfl

/-! ## Claim C5 — the normalizer on well-formed URLs -/

/-- C5 (counterexample): the claim says the normalizer restricted to
well-formed URLs is the identity on the input string; `"http://example.com"`
is a well-formed URL, yet the value the normalizer returns serializes as
`"http://example.com/"` — `Url::parse` normalizes, so the round-trip is not
the raw input. -/
theorem normalizer_not_identity_on_raw_url :
    parse_url_or_ip "http://example.com".data = .ok cexUrl ∧
    cexUrl.serialization ≠ "http://example.com" :=
  ⟨rfl, by decide⟩

/-- C5 (amended): for every input that parses as a well-formed URL the
normalizer returns the parsed URL itself, unchanged; consequently on inputs
already in serialized (normalized) form it is the identity on the string,
while on other well-formed inputs the serialization is the URL normalization
of the input rather than the input itself. -/
theorem normalizer_identity_on_parsed_urls :
    ∀ (s : List Char) (u : ModelUrl), ModelUrl.parse s = some u →
      parse_url_or_ip s = .ok u ∧
      (u.serialization.data = s → ∃ v, parse_url_or_ip s = .ok v ∧ v.serialization.data = s) := by
  intro s u h
  have hbase : parse_url_or_ip s = .ok u := by
    unfold parse_url_or_ip
    rw [h]
  exact ⟨hbase, fun hs => ⟨u, hbase, hs⟩⟩

/-- Witness for `normalizer_identity_on_parsed_urls` at the already-serialized
input `http://example.com/`. -/
theorem normalizer_identity_on_parsed_urls_witness :
    parse_url_or_ip "http://example.com/".data = .ok cexUrl ∧
    cexUrl.serialization.data = "http://example.com/".data :=
  ⟨(normalizer_identity_on_parsed_urls "http://example.com/".data cexUrl rfl).1, rfl⟩

/-! ## Claim C6 — `host:port` round-trip (counterexample part) -/

/-- C6 (counterexample): the claim says every valid `host:port` input with an
IPv4 or IPv6 literal host succeeds with the host and port preserved; for the
input `::1:8080` — host `::1` (an IPv6 literal, as witnessed), port `8080` (a
valid `u16`, as witnessed) — the source builds `http://::1:8080` without
brackets, `Url::parse` rejects it, and the normalizer returns an error. -/
theorem normalizer_rejects_unbracketed_ipv6_port :
    parse_url_or_ip "::1:8080".data = .error "Failed to convert IP address with port to URL" ∧
    ipFromStr "::1".data = some (.v6 ⟨[0, 0, 0, 0, 0, 0, 0, 1]⟩) ∧
    parseUIntRust 65535 "8080".data = some 8080 := ⟨rfl, rfl, rfl⟩

/-! ## Claim C2 — HTTP timeouts -/

/-- `httpTimeouts` distributes over trace concatenation. -/
theorem httpTimeouts_append (a b : List Effect) :
    httpTimeouts (a ++ b) = httpTimeouts a ++ httpTimeouts b :=
  List.filterMap_append ..

/-- `connect_to_node` performs no HTTP call, whatever its inputs. -/
theorem connect_to_node_no_http (pk : String → Except String String)
    (conn : Except String Unit) (uri : String) :
    httpTimeouts (connect_to_node pk conn uri).1 = [] := by
  unfold connect_to_node
  repeat (any_goals split)
  all_goals rfl

/-- C2 (counterexample): the claim that one bounded timeout is applied to
every outbound HTTP call of the three flows is false: a single successful
channel run issues its parameter fetch with the 60-second timeout and its
callback GET with no timeout at all, so no uniform timeout exists. -/
theorem http_timeout_not_uniform : ¬ uniformTimeoutClaim := by
  rintro ⟨T, hc, -, -⟩
  have hm : httpTimeouts (channel_request okChannelOracle cexUrl).1 = [some 60, none] := rfl
  have h1 := hc okChannelOracle cexUrl (some 60) (by rw [hm]; exact List.mem_cons_self _ _)
  have h2 := hc okChannelOracle cexUrl none (by rw [hm]; simp)
  rw [← h1] at h2
  exact Option.noConfusion h2

/-- C2 (amended): in every run of the three flows, the channel-flow parameter
fetch is the only HTTP call issued with the bounded 60-second timeout — it is
always the first HTTP call of a channel run — and every other HTTP call
(channel callback, withdraw parameter fetch and callback, auth challenge
fetch and response) is issued with no explicit timeout. -/
theorem http_timeout_only_on_channel_params :
    (∀ co u, ∃ k, httpTimeouts (channel_request co u).1 = [some 60, none].take k) ∧
    (∀ wo u a d, ∃ k, httpTimeouts (withdraw_request wo u a d).1 = List.replicate k none) ∧
    (∀ ao u, ∃ k, httpTimeouts (auth_request ao u).1 = List.replicate k none) := by
  refine ⟨?_, ?_, ?_⟩
  · intro co u
    obtain ⟨rtB, env, rpcN, gi, pf, pk, con, cb⟩ := co
    cases rtB with
    | error e => exact ⟨0, rfl⟩
    | ok v =>
      cases v
      cases rpcN with
      | error e => exact ⟨0, rfl⟩
      | ok v =>
        cases v
        cases gi with
        | err e => exact ⟨0, rfl⟩
        | unexpected => exact ⟨0, rfl⟩
        | ok pkStr =>
          cases pf with
          | errDisplay msg => exact ⟨1, rfl⟩
          | ok pres =>
            cases pres with
            | error e => exact ⟨1, rfl⟩
            | ok resp =>
              rcases hc : connect_to_node pk con resp.uri with ⟨cfx, cres⟩
              have hnh : httpTimeouts cfx = [] := by
                have h2 := connect_to_node_no_http pk con resp.uri
                rw [hc] at h2
                exact h2
              unfold channel_request
              dsimp only [get_node_uri]
              rw [hc]
              cases cres with
              | panics =>
                refine ⟨1, ?_⟩
                rw [httpTimeouts_append, hnh]
                rfl
              | err e =>
                refine ⟨1, ?_⟩
                rw [httpTimeouts_append, hnh]
                rfl
              | ok v =>
                cases v
                cases cb with
                | errDisplay msg =>
                  refine ⟨2, ?_⟩
                  rw [httpTimeouts_append, httpTimeouts_append, hnh]
                  rfl
                | ok cres2 =>
                  cases cres2 with
                  | error e =>
                    refine ⟨2, ?_⟩
                    rw [httpTimeouts_append, httpTimeouts_append, hnh]
                    rfl
                  | ok w =>
                    refine ⟨2, ?_⟩
                    rw [httpTimeouts_append, httpTimeouts_append, hnh]
                    rfl
  · intro wo u a d
    obtain ⟨rtB, env, rpcN, pf, nm, inv, cb⟩ := wo
    cases rtB with
    | error e => exact ⟨0, rfl⟩
    | ok v =>
      cases v
      cases rpcN with
      | error e => exact ⟨0, rfl⟩
      | ok v =>
        cases v
        cases pf with
        | errDisplay msg => exact ⟨1, rfl⟩
        | ok pres =>
          cases pres with
          | error e => exact ⟨1, rfl⟩
          | ok resp =>
            unfold withdraw_request
            dsimp only
            split
            · exact ⟨1, rfl⟩
            · cases inv with
              | err e => exact ⟨1, rfl⟩
              | unexpected => exact ⟨1, rfl⟩
              | ok bolt =>
                cases cb with
                | ok cres =>
                  cases cres with
                  | error e => exact ⟨2, rfl⟩
                  | ok w => exact ⟨2, rfl⟩
                | status code b => exact ⟨2, rfl⟩
                | transport msg => exact ⟨2, rfl⟩
  · intro ao u
    obtain ⟨rtB, env, rpcN, gi, ch, sg, rs⟩ := ao
    cases rtB with
    | error e => exact ⟨0, rfl⟩
    | ok v =>
      cases v
      cases rpcN with
      | error e => exact ⟨0, rfl⟩
      | ok v =>
        cases v
        cases gi with
        | err e => exact ⟨0, rfl⟩
        | unexpected => exact ⟨0, rfl⟩
        | ok pkStr =>
          cases ch with
          | errDisplay msg => exact ⟨1, rfl⟩
          | ok cres =>
            cases cres with
            | error e => exact ⟨1, rfl⟩
            | ok body =>
              unfold auth_request
              dsimp only
              rcases hk : parse_k1_from_challenge body with e | k1
              · exact ⟨1, rfl⟩
              · cases sg with
                | err e => exact ⟨1, rfl⟩
                | unexpected => exact ⟨1, rfl⟩
                | ok sig =>
                  cases rs with
                  | ok rres =>
                    cases rres with
                    | error e => exact ⟨2, rfl⟩
                    | ok w => exact ⟨2, rfl⟩
                  | status code b => exact ⟨2, rfl⟩
                  | transport msg => exact ⟨2, rfl⟩

/-! ## Claim C3 — withdraw range validation -/

/-- C3: for every fetched parameter set and requested amount, an amount
strictly below `min_withdrawable` or strictly above `max_withdrawable` makes
the flow fail with a validation error naming the allowed range, having
performed no invoice-creation RPC and exactly one HTTP call (the parameter
fetch — in particular no callback call); an amount equal to either bound
passes validation and the flow proceeds to the invoice-creation RPC. -/
theorem withdraw_range_validation :
    ∀ (wo : WithdrawOracle) (url : ModelUrl) (amt : Nat) (d : Option String)
      (p : WithdrawRequestResponse),
      wo.rtBuild = .ok () → wo.rpcNew = .ok () → wo.paramsFetch = .ok (.ok p) →
      ((amt < p.min_withdrawable ∨ amt > p.max_withdrawable →
        withdraw_request wo url amt d =
          ([.rpcNewClient (get_cln_rpc_path wo.envClnRpcPath),
            .httpGet (trimEndMatchesSlash url.serialization ++ "/request-withdraw") none],
           .error ("Amount " ++ (⟨natToDec amt⟩ : String) ++
             " msat is outside allowed range [" ++ (⟨natToDec p.min_withdrawable⟩ : String) ++
             ", " ++ (⟨natToDec p.max_withdrawable⟩ : String) ++ "]")) ∧
        (withdraw_request wo url amt d).1.countP (fun e => e.isInvoiceRpc) = 0 ∧
        (withdraw_request wo url amt d).1.countP (fun e => e.isHttpCall) = 1) ∧
       ((amt = p.min_withdrawable ∨ amt = p.max_withdrawable) →
        p.min_withdrawable ≤ p.max_withdrawable →
        (withdraw_request wo url amt d).1.take 3 =
          [.rpcNewClient (get_cln_rpc_path wo.envClnRpcPath),
           .httpGet (trimEndMatchesSlash url.serialization ++ "/request-withdraw") none,
           .rpcInvoice amt (d.getD p.default_description)
             ("lnurl-withdraw-" ++ (⟨natToDec wo.nowMillis⟩ : String))])) := by
  intro wo url amt d p h1 h2 h3
  obtain ⟨rtB, env, rpcN, pf, nm, inv, cb⟩ := wo
  dsimp only at h1 h2 h3 ⊢
  subst h1
  subst h2
  subst h3
  constructor
  · intro hout
    unfold withdraw_request
    dsimp only
    rw [if_pos hout]
    exact ⟨rfl, rfl, rfl⟩
  · intro hbnd hle
    have hout : ¬(amt < p.min_withdrawable ∨ amt > p.max_withdrawable) := by
      rcases hbnd with h | h <;> omega
    unfold withdraw_request
    dsimp only
    rw [if_neg hout]
    cases inv with
    | err e => rfl
    | unexpected => rfl
    | ok bolt =>
      cases cb with
      | ok cres =>
        cases cres with
        | error e => rfl
        | ok w => rfl
      | status code b => rfl
      | transport m => rfl

/-- Witness for `withdraw_range_validation`: with fetched parameters allowing
`[10, 20]` msat, the amount 5 is rejected with the range-naming error, and
the boundary amount 10 passes validation and reaches the invoice RPC. -/
theorem withdraw_range_validation_witness :
    (withdraw_request rangeWithdrawOracle cexUrl 5 none).2 =
      .error "Amount 5 msat is outside allowed range [10, 20]" ∧
    (withdraw_request rangeWithdrawOracle cexUrl 10 none).1.take 3 =
      [.rpcNewClient defaultClnRpcPath,
       .httpGet "http://example.com/request-withdraw" none,
       .rpcInvoice 10 "dd" "lnurl-withdraw-1234"] := by
  constructor
  · have h := (withdraw_range_validation rangeWithdrawOracle cexUrl 5 none
      ⟨"http://cb", "k1v", "withdrawRequest", "dd", 10, 20⟩ rfl rfl rfl).1 (by decide)
    rw [h.1]
    rfl
  · exact (withdraw_range_validation rangeWithdrawOracle cexUrl 10 none
      ⟨"http://cb", "k1v", "withdrawRequest", "dd", 10, 20⟩ rfl rfl rfl).2 (by decide) (by decide)

/-! ## Claim C7 — callback outcome handling in the withdraw and auth flows -/

/-- C7: in runs of the withdraw and auth flows that reach the final
callback/response GET, a non-2xx HTTP status with a readable body makes the
flow fail with that body verbatim at the end of the failure reason; a parsed
2xx outcome makes the flow succeed exactly when `status = "OK"` and otherwise
fail with the outcome's `reason`, defaulting to `Unknown error` when the
reason is absent. -/
theorem callback_outcome_handling :
    ∀ (wo : WithdrawOracle) (url : ModelUrl) (amt : Nat) (d : Option String)
      (p : WithdrawRequestResponse) (b11 : String) (ao : AuthOracle) (url2 : ModelUrl),
      wo.rtBuild = .ok () → wo.rpcNew = .ok () → wo.paramsFetch = .ok (.ok p) →
      p.min_withdrawable ≤ amt → amt ≤ p.max_withdrawable → wo.invoice = .ok b11 →
      ao.rtBuild = .ok () → ao.rpcNew = .ok () → (∃ pk, ao.getinfo = .ok pk) →
      (∃ body k1, ao.challengeFetch = .ok (.ok body) ∧ parse_k1_from_challenge body = .ok k1) →
      (∃ sig, ao.signmessage = .ok sig) →
      ((∀ code b, wo.callbackFetch = .status code (some b) →
         (withdraw_request wo url amt d).2 =
           .error ("Withdraw request failed (HTTP " ++ (⟨natToDec code⟩ : String) ++ "): " ++ b)) ∧
       (∀ w, wo.callbackFetch = .ok (.ok w) →
         (((withdraw_request wo url amt d).2 = .ok ()) ↔ w.status = "OK") ∧
         (w.status ≠ "OK" →
           (withdraw_request wo url amt d).2 =
             .error ("Withdrawal failed: " ++ w.reason.getD "Unknown error"))) ∧
       (∀ code b, ao.responseFetch = .status code (some b) →
         (auth_request ao url2).2 =
           .error ("Auth response failed (HTTP " ++ (⟨natToDec code⟩ : String) ++ "): " ++ b)) ∧
       (∀ a, ao.responseFetch = .ok (.ok a) →
         (((auth_request ao url2).2 = .ok ()) ↔ a.status = "OK") ∧
         (a.status ≠ "OK" →
           (auth_request ao url2).2 =
             .error ("Authentication failed: " ++ a.reason.getD "Unknown error")))) := by
  intro wo url amt d p b11 ao url2 hw1 hw2 hw3 hmin hmax hw4 ha1 ha2 ha3 ha4 ha5
  obtain ⟨rtB, env, rpcN, pf, nm, inv, cb⟩ := wo
  obtain ⟨artB, aenv, arpcN, agi, ach, asg, ars⟩ := ao
  obtain ⟨pkStr, hpk⟩ := ha3
  obtain ⟨body, k1, hbody, hk1⟩ := ha4
  obtain ⟨sig, hsig⟩ := ha5
  dsimp only at hw1 hw2 hw3 hw4 ha1 ha2 hpk hbody hsig ⊢
  subst hw1
  subst hw2
  subst hw3
  subst hw4
  subst ha1
  subst ha2
  subst hpk
  subst hbody
  subst hsig
  have hval : ¬(amt < p.min_withdrawable ∨ amt > p.max_withdrawable) := by omega
  refine ⟨?_, ?_, ?_, ?_⟩
  · intro code b hcb
    subst hcb
    unfold withdraw_request
    dsimp only
    rw [if_neg hval]
    rfl
  · intro w hcb
    subst hcb
    unfold withdraw_request
    dsimp only
    rw [if_neg hval]
    constructor
    · by_cases hs : w.status = "OK"
      · simp [hs]
      · simp [hs]
    · intro hs
      rw [if_neg hs]
  · intro code b hcb
    subst hcb
    unfold auth_request
    dsimp only
    rw [hk1]
    rfl
  · intro a hcb
    subst hcb
    unfold auth_request
    dsimp only
    rw [hk1]
    constructor
    · by_cases hs : a.status = "OK"
      · simp [hs]
      · simp [hs]
    · intro hs
      rw [if_neg hs]

/-- Witness for `callback_outcome_handling`: a withdraw callback answering
HTTP 404 with body `payment failed` fails with that body at the end of the
reason, and an auth response outcome `status = "ERROR"`, `reason = "bad sig"`
fails with that reason. -/
theorem callback_outcome_handling_witness :
    (withdraw_request statusErrWithdrawOracle cexUrl 15 none).2 =
      .error "Withdraw request failed (HTTP 404): payment failed" ∧
    (auth_request statusErrAuthOracle cexUrl).2 =
      .error "Authentication failed: bad sig" := by
  have h := callback_outcome_handling statusErrWithdrawOracle cexUrl 15 none
    ⟨"http://cb", "k1v", "withdrawRequest", "dd", 10, 20⟩ "lnbc1qqq" statusErrAuthOracle cexUrl
    rfl rfl rfl (by decide) (by decide) rfl rfl rfl ⟨"02aa", rfl⟩ ⟨"abc123", "abc123", rfl, rfl⟩
    ⟨"zbasesig", rfl⟩
  exact ⟨h.1 404 "payment failed" rfl, (h.2.2.2 ⟨"ERROR", some "bad sig"⟩ rfl).2 (by decide)⟩

/-! ## Claim C8 — the two challenge-body shapes are equivalent -/

/-- Reading a JSON string made of escape-free characters consumes exactly the
characters up to the closing quote. -/
theorem readJStrAux_safe :
    ∀ (t : List Char) (fuel : Nat) (rest : List Char),
      t.all jsonSafeChar = true → t.length < fuel →
      readJStrAux fuel (t ++ '"' :: rest) = some (t, rest) := by
  intro t
  induction t with
  | nil =>
    intro fuel rest _ hf
    cases fuel with
    | zero => omega
    | succ f => rfl
  | cons c t ih =>
    intro fuel rest hall hf
    cases fuel with
    | zero => omega
    | succ f =>
      have hparts : jsonSafeChar c = true ∧ t.all jsonSafeChar = true := by
        simpa [List.all_cons, Bool.and_eq_true] using hall
      have hc := hparts.1
      simp only [jsonSafeChar, Bool.and_eq_true, bne_iff_ne, ne_eq, decide_eq_true_eq] at hc
      obtain ⟨⟨hq, hb⟩, hn⟩ := hc
      show readJStrAux (f + 1) (c :: (t ++ '"' :: rest)) = _
      unfold readJStrAux
      rw [if_neg hq, if_neg hb, if_neg (by omega : ¬ c.toNat < 32)]
      rw [ih f rest hparts.2 (by simpa using Nat.lt_of_succ_lt_succ hf)]
      rfl

/-- Trimming does not change the JSON challenge body (it starts with `\x7b`
and ends with `\x7d`). -/
theorem trimChars_jsonK1Body (t : List Char) :
    trimChars (jsonK1Body t) = jsonK1Body t := by
  unfold trimChars jsonK1Body
  simp [List.dropWhile_cons, List.reverse_append]

/-- Deserializing the JSON body `\x7b"k1": "<t>"\x7d` yields `t` for every
escape-free token `t`. -/
theorem k1FromJson_direct (t : List Char) (h : t.all jsonSafeChar = true) :
    k1FromJson (jsonK1Body t) = .ok ⟨t⟩ := by
  have hval : readJStrAux ((jsonK1Body t).length + 1 + 1) (t ++ ['"', '\x7d']) =
      some (t, ['\x7d']) :=
    readJStrAux_safe t _ _ h
      (by simp only [jsonK1Body, List.length_cons, List.length_append]; omega)
  have hrv : readJVal ((jsonK1Body t).length + 1 + 1) ('"' :: t ++ ['"', '\x7d']) =
      some (.str t, ['\x7d']) := by
    have hx : readJVal ((jsonK1Body t).length + 1 + 1) ('"' :: t ++ ['"', '\x7d']) =
        (readJStrAux ((jsonK1Body t).length + 1 + 1) (t ++ ['"', '\x7d'])).map
          (fun p => (JVal.str p.1, p.2)) := rfl
    rw [hx, hval]
    rfl
  have h1 : k1FromJson (jsonK1Body t) =
      match readJVal ((jsonK1Body t).length + 1 + 1) ('"' :: t ++ ['"', '\x7d']) with
      | none => .error "bad value"
      | some (v, r3) =>
        if ['k', '1'] = "k1".data then
          match (none : Option (List Char)), v with
          | some _, _ => .error "duplicate field k1"
          | none, .str sv => jMembers ((jsonK1Body t).length + 1) false (some sv) r3
          | none, .other => .error "invalid type for field k1"
        else jMembers ((jsonK1Body t).length + 1) false none r3 := rfl
  rw [h1, hrv]
  rfl

/-- C8: the two accepted challenge-body shapes are equivalent: for every
token `t` (whitespace-trimmed, not beginning with `\x7b`, free of characters
needing JSON escapes), parsing the bare body `t` and parsing the JSON body
`\x7b"k1": "t"\x7d` both yield the k1 value `t`. -/
theorem k1_challenge_dual_format :
    ∀ t : String, trimChars t.data = t.data → t.data.head? ≠ some '\x7b' →
      t.data.all jsonSafeChar = true →
      parse_k1_from_challenge t = .ok t ∧
      parse_k1_from_challenge ⟨jsonK1Body t.data⟩ = .ok t := by
  intro t h1 h2 h3
  constructor
  · unfold parse_k1_from_challenge
    dsimp only
    rw [h1, if_neg h2]
  · unfold parse_k1_from_challenge
    dsimp only
    rw [trimChars_jsonK1Body]
    rw [if_pos (show (jsonK1Body t.data).head? = some '\x7b' from rfl)]
    rw [k1FromJson_direct t.data h3]

/-- Witness for `k1_challenge_dual_format` at the token `abc123`: the bare
body and the JSON body both yield `k1 = "abc123"`. -/
theorem k1_challenge_dual_format_witness :
    parse_k1_from_challenge "abc123" = .ok "abc123" ∧
    parse_k1_from_challenge "\x7b\"k1\":\"abc123\"\x7d" = .ok "abc123" := by
  have h := k1_challenge_dual_format "abc123" (by decide) (by decide) (by decide)
  refine ⟨h.1, ?_⟩
  have h2 := h.2
  rw [show (⟨jsonK1Body "abc123".data⟩ : String) = "\x7b\"k1\":\"abc123\"\x7d" from by decide] at h2
  exact h2

/-! ## Claim C9 — invalid arguments -/

/-- C9 (counterexample): the claim says every invalid or incomplete argument
vector makes the program print the usage text to the error stream; for
`lnurl-client request-channel` (missing URL) the program prints only the
error line and exits 1 before any network effect — the usage text (which
begins `Usage:`) is not printed. -/
theorem usage_not_printed_on_missing_arg :
    main_model okChannelOracle rangeWithdrawOracle statusErrAuthOracle
      ["lnurl-client", "request-channel"] =
      ⟨[], ["Error: request-channel requires a <url> argument"], 1⟩ ∧
    "Usage:" ∉ (main_model okChannelOracle rangeWithdrawOracle statusErrAuthOracle
      ["lnurl-client", "request-channel"]).stderr ∧
    "Usage:" ∈ usage_lines := by
  refine ⟨rfl, ?_, ?_⟩ <;> decide

/-- C9 (amended): for every invalid argument vector, `main` prints an error
line to the error stream and exits with code 1 having performed no HTTP or
node-RPC effect (no flow is invoked); the usage text is printed in addition
exactly when the command word is missing or unknown, not for the other
argument errors. -/
theorem invalid_args_exit_before_network :
    ∀ (co : ChannelOracle) (wo : WithdrawOracle) (ao : AuthOracle)
      (argv : List String) (e : String), (parse_args argv).2 = .error e →
      main_model co wo ao argv = ⟨[], (parse_args argv).1 ++ ["Error: " ++ e], 1⟩ ∧
      ("Error: " ++ e) ∈ (main_model co wo ao argv).stderr ∧
      (argv.length ≤ 1 → (parse_args argv).1 = usage_lines) ∧
      (∀ prog cmd rest, argv = prog :: cmd :: rest →
        cmd ≠ "request-channel" → cmd ≠ "request-withdraw" →
        cmd ≠ "request-auth" → cmd ≠ "lnurl-auth" →
        (parse_args argv).1 = usage_lines) := by
  intro co wo ao argv e he
  have hmain : main_model co wo ao argv =
      ⟨[], (parse_args argv).1 ++ ["Error: " ++ e], 1⟩ := by
    unfold main_model
    rcases hp : parse_args argv with ⟨lines, r⟩
    rw [hp] at he
    dsimp only at he
    subst he
    rfl
  refine ⟨hmain, ?_, ?_, ?_⟩
  · rw [hmain]
    simp
  · intro hlen
    match argv with
    | [] => rfl
    | [a] => rfl
    | a :: b :: rest => simp at hlen
  · intro prog cmd rest heq h1 h2 h3 h4
    subst heq
    unfold parse_args
    simp [h1, h2, h3, h4]

/-- Witness for `invalid_args_exit_before_network` at the unknown command
`bogus`: the run prints the usage text and the error line and exits 1 with no
effects. -/
theorem invalid_args_exit_before_network_witness :
    (parse_args ["lnurl-client", "bogus"]).2 = .error "Unknown command: bogus" ∧
    main_model okChannelOracle rangeWithdrawOracle statusErrAuthOracle
      ["lnurl-client", "bogus"] =
      ⟨[], usage_lines ++ ["Error: Unknown command: bogus"], 1⟩ := by
  refine ⟨rfl, ?_⟩
  have h := (invalid_args_exit_before_network okChannelOracle rangeWithdrawOracle
    statusErrAuthOracle ["lnurl-client", "bogus"] "Unknown command: bogus" rfl).1
  rw [h]
  rfl

/-! ## Claim C6 — supporting lemmas

The round-trip proof needs the character sets of the IP renderings (stated as
membership in literal character lists, so that every derived fact is a
`decide` over at most sixteen characters), the decimal round-trip, and the
behaviour of the string-searching primitives on inputs of the shape the
normalizer receives. -/

/-- Transfers a decidable fact about a literal character list to all
characters drawn from it. -/
theorem mem_imp {P : Char → Prop} {L : List Char} (hdec : ∀ c ∈ L, P c)
    {x : List Char} (hx : ∀ c ∈ x, c ∈ L) : ∀ c ∈ x, P c :=
  fun c hc => hdec c (hx c hc)

/-- Digit characters of values below ten. -/
theorem digitChar_mem {n : Nat} (h : n < 10) :
    digitChar n ∈ decDigits := by
  interval_cases n <;> decide

/-- `decVal` inverts `digitChar` below ten. -/
theorem decVal_digitChar {n : Nat} (h : n < 10) : decVal (digitChar n) = n := by
  interval_cases n <;> decide

/-- Hex digit characters of values below sixteen. -/
theorem hexChar_mem {n : Nat} (h : n < 16) :
    hexChar n ∈ hexDigits := by
  interval_cases n <;> decide

/-- Every character of a decimal rendering is a digit character. -/
theorem natToDecAux_mem :
    ∀ (fuel n : Nat), ∀ c ∈ natToDecAux fuel n,
      c ∈ decDigits := by
  intro fuel
  induction fuel with
  | zero => intro n c hc; simp [natToDecAux] at hc
  | succ f ih =>
    intro n c hc
    unfold natToDecAux at hc
    by_cases h : n < 10
    · rw [if_pos h] at hc
      simp only [List.mem_singleton] at hc
      subst hc
      exact digitChar_mem h
    · rw [if_neg h] at hc
      rcases List.mem_append.mp hc with h1 | h1
      · exact ih _ c h1
      · simp only [List.mem_singleton] at h1
        subst h1
        exact digitChar_mem (by omega)

/-- Every character of `natToDec n` is a digit character. -/
theorem natToDec_mem (n : Nat) :
    ∀ c ∈ natToDec n, c ∈ decDigits :=
  natToDecAux_mem (n + 1) n

/-- A decimal rendering with enough fuel begins with a digit character. -/
theorem natToDecAux_head :
    ∀ (fuel n : Nat), n < fuel → ∃ c cs, natToDecAux fuel n = c :: cs ∧
      c ∈ decDigits := by
  intro fuel
  induction fuel with
  | zero => omega
  | succ f ih =>
    intro n hn
    unfold natToDecAux
    by_cases h : n < 10
    · rw [if_pos h]
      exact ⟨digitChar n, [], rfl, digitChar_mem h⟩
    · rw [if_neg h]
      obtain ⟨c, cs, hcs, hc⟩ := ih (n / 10) (by omega)
      exact ⟨c, cs ++ [digitChar (n % 10)], by rw [hcs]; rfl, hc⟩

/-- `natToDec n` begins with a digit character. -/
theorem natToDec_head (n : Nat) :
    ∃ c cs, natToDec n = c :: cs ∧
      c ∈ decDigits :=
  natToDecAux_head (n + 1) n (by omega)

/-- `decFold` over an appended digit. -/
theorem decFold_append (xs : List Char) (c : Char) :
    decFold (xs ++ [c]) = decFold xs * 10 + decVal c := by
  unfold decFold
  rw [List.foldl_append]
  rfl

/-- `decFold` inverts the decimal rendering (with enough fuel). -/
theorem decFold_natToDecAux :
    ∀ (fuel n : Nat), n < fuel → decFold (natToDecAux fuel n) = n := by
  intro fuel
  induction fuel with
  | zero => omega
  | succ f ih =>
    intro n hn
    unfold natToDecAux
    by_cases h : n < 10
    · rw [if_pos h]
      show decFold [digitChar n] = n
      unfold decFold
      simp [List.foldl, decVal_digitChar h]
    · rw [if_neg h]
      rw [decFold_append, ih (n / 10) (by omega), decVal_digitChar (by omega : n % 10 < 10)]
      omega

/-- `decFold` inverts `natToDec`. -/
theorem decFold_natToDec (n : Nat) : decFold (natToDec n) = n :=
  decFold_natToDecAux (n + 1) n (by omega)

/-- The Rust unsigned parser accepts a decimal rendering within range. -/
theorem parseUIntRust_natToDec {maxVal n : Nat} (h : n ≤ maxVal) :
    parseUIntRust maxVal (natToDec n) = some n := by
  obtain ⟨c, cs, hcs, hc⟩ := natToDec_head n
  have hplus : (natToDec n).head? = some '+' → False := by
    rw [hcs]
    intro hcontra
    simp only [List.head?_cons, Option.some.injEq] at hcontra
    subst hcontra
    revert hc
    decide
  have hdigs : (natToDec n).all Char.isDigit = true := by
    rw [List.all_eq_true]
    exact mem_imp (by decide) (natToDec_mem n)
  unfold parseUIntRust
  rw [if_neg hplus]
  rw [if_neg (by rw [hcs]; simp)]
  rw [if_pos hdigs]
  rw [decFold_natToDec]
  rw [if_pos h]

/-- Every character of a hex rendering is a lowercase hex digit. -/
theorem natToHexAux_mem :
    ∀ (fuel n : Nat), ∀ c ∈ natToHexAux fuel n,
      c ∈ hexDigits := by
  intro fuel
  induction fuel with
  | zero => intro n c hc; simp [natToHexAux] at hc
  | succ f ih =>
    intro n c hc
    unfold natToHexAux at hc
    by_cases h : n < 16
    · rw [if_pos h] at hc
      simp only [List.mem_singleton] at hc
      subst hc
      exact hexChar_mem h
    · rw [if_neg h] at hc
      rcases List.mem_append.mp hc with h1 | h1
      · exact ih _ c h1
      · simp only [List.mem_singleton] at h1
        subst h1
        exact hexChar_mem (by omega)

/-- Every character of `natToHex n` is a lowercase hex digit. -/
theorem natToHex_mem (n : Nat) :
    ∀ c ∈ natToHex n, c ∈ hexDigits :=
  natToHexAux_mem (n + 1) n

/-- Taking a list-length prefix of an append. -/
theorem take_len_app (x y : List Char) : (x ++ y).take x.length = x := by
  induction x with
  | nil => rfl
  | cons a t ih => simp [ih]

/-- Dropping a list-length prefix of an append. -/
theorem drop_len_app (x y : List Char) : (x ++ y).drop x.length = y := by
  induction x with
  | nil => rfl
  | cons a t ih => simp [ih]

/-- `takeWhile`/`dropWhile` on a list every element of which satisfies the
predicate. -/
theorem takeWhile_all (p : Char → Bool) :
    ∀ (x : List Char), (∀ c ∈ x, p c = true) →
      x.takeWhile p = x ∧ x.dropWhile p = [] := by
  intro x
  induction x with
  | nil => intro _; exact ⟨rfl, rfl⟩
  | cons a t ih =>
    intro h
    have ha : p a = true := h a (by simp)
    have iht := ih (fun c hc => h c (by simp [hc]))
    simp [List.takeWhile_cons, List.dropWhile_cons, ha, iht.1, iht.2]

/-- `takeWhile`/`dropWhile` split at the first failing element. -/
theorem takeWhile_stop (p : Char → Bool) (b : Char) (y : List Char) (hb : p b = false) :
    ∀ (x : List Char), (∀ c ∈ x, p c = true) →
      (x ++ b :: y).takeWhile p = x ∧ (x ++ b :: y).dropWhile p = b :: y := by
  intro x
  induction x with
  | nil => intro _; simp [List.takeWhile_cons, List.dropWhile_cons, hb]
  | cons a t ih =>
    intro h
    have ha : p a = true := h a (by simp)
    have iht := ih (fun c hc => h c (by simp [hc]))
    simp [List.takeWhile_cons, List.dropWhile_cons, ha, iht.1, iht.2]

/-- `splitFirstCh` splits at the first occurrence of the separator. -/
theorem splitFirstCh_at (sep : Char) (y : List Char) :
    ∀ (x : List Char), (∀ c ∈ x, c ≠ sep) →
      splitFirstCh sep (x ++ sep :: y) = some (x, y) := by
  intro x
  induction x with
  | nil => intro _; simp [splitFirstCh]
  | cons a t ih =>
    intro h
    have ha : a ≠ sep := h a (by simp)
    have iht := ih (fun c hc => h c (by simp [hc]))
    show splitFirstCh sep (a :: (t ++ sep :: y)) = some (a :: t, y)
    unfold splitFirstCh
    rw [if_neg ha, iht]
    rfl

/-- The pattern `]:` does not occur in a string without `]`. -/
theorem findSub_bracket_none :
    ∀ (s : List Char), (∀ c ∈ s, c ≠ ']') → findSubIdx [']', ':'] s = none := by
  intro s
  induction s with
  | nil => intro _; rfl
  | cons a t ih =>
    intro h
    have ha : a ≠ ']' := h a (by simp)
    have iht := ih (fun c hc => h c (by simp [hc]))
    have hsw : startsWithList [']', ':'] (a :: t) = false := by
      unfold startsWithList
      simp [ha]
    have hstep : findSubIdx [']', ':'] (a :: t) =
        if startsWithList [']', ':'] (a :: t) then some 0
        else (findSubIdx [']', ':'] t).map (· + 1) := rfl
    rw [hstep, hsw, if_neg (by simp), iht]
    rfl

/-- The pattern `]:` first occurs right after a `]`-free prefix. -/
theorem findSub_bracket_at (y : List Char) :
    ∀ (z : List Char), (∀ c ∈ z, c ≠ ']') →
      findSubIdx [']', ':'] (z ++ ']' :: ':' :: y) = some z.length := by
  intro z
  induction z with
  | nil => intro _; rfl
  | cons a t ih =>
    intro h
    have ha : a ≠ ']' := h a (by simp)
    have iht := ih (fun c hc => h c (by simp [hc]))
    show findSubIdx [']', ':'] (a :: (t ++ ']' :: ':' :: y)) = some (t.length + 1)
    have hsw : startsWithList [']', ':'] (a :: (t ++ ']' :: ':' :: y)) = false := by
      unfold startsWithList
      simp [ha]
    have hstep : findSubIdx [']', ':'] (a :: (t ++ ']' :: ':' :: y)) =
        if startsWithList [']', ':'] (a :: (t ++ ']' :: ':' :: y)) then some 0
        else (findSubIdx [']', ':'] (t ++ ']' :: ':' :: y)).map (· + 1) := rfl
    rw [hstep, hsw, if_neg (by simp), iht]
    rfl

/-- `rfindCh` misses a separator-free string. -/
theorem rfind_none (sep : Char) :
    ∀ (s : List Char), (∀ c ∈ s, c ≠ sep) → rfindCh sep s = none := by
  intro s
  induction s with
  | nil => intro _; rfl
  | cons a t ih =>
    intro h
    have ha : a ≠ sep := h a (by simp)
    have iht := ih (fun c hc => h c (by simp [hc]))
    unfold rfindCh
    rw [iht, if_neg ha]

/-- `rfindCh` finds the last separator when the suffix after it is
separator-free. -/
theorem rfind_last (sep : Char) (y : List Char) (hy : ∀ c ∈ y, c ≠ sep) :
    ∀ (x : List Char), rfindCh sep (x ++ sep :: y) = some x.length := by
  intro x
  induction x with
  | nil =>
    show rfindCh sep (sep :: y) = some 0
    unfold rfindCh
    rw [rfind_none sep y hy, if_pos rfl]
  | cons a t ih =>
    show rfindCh sep (a :: (t ++ sep :: y)) = some (t.length + 1)
    unfold rfindCh
    rw [ih]

/-- Every character of an IPv4 rendering is a digit or a dot. -/
theorem ipv4Display_mem (ip : Ipv4) :
    ∀ c ∈ ipv4Display ip,
      c ∈ decDigits ++ ['.'] := by
  intro c hc
  unfold ipv4Display at hc
  simp only [List.mem_append, List.mem_cons] at hc
  repeat' rcases hc with hc | hc
  all_goals
    first
      | decide
      | exact mem_imp (by decide) (natToDec_mem _) _ hc

/-- An IPv4 rendering begins with a digit character. -/
theorem ipv4Display_head (ip : Ipv4) :
    ∃ c cs, ipv4Display ip = c :: cs ∧
      c ∈ decDigits := by
  obtain ⟨c, cs, hcs, hc⟩ := natToDec_head ip.a
  refine ⟨c, cs ++ '.' :: natToDec ip.b ++ '.' :: natToDec ip.c ++ '.' :: natToDec ip.d,
    ?_, hc⟩
  unfold ipv4Display
  rw [hcs]
  rfl

/-- Characters of a colon-join all come from the parts or are the colon. -/
theorem joinColon_mem {L : List Char} (hcolon : ':' ∈ L) :
    ∀ (parts : List (List Char)), (∀ p ∈ parts, ∀ c ∈ p, c ∈ L) →
      ∀ c ∈ joinColon parts, c ∈ L := by
  intro parts
  induction parts with
  | nil => intro _ c hc; simp [joinColon] at hc
  | cons p rest ih =>
    intro h c hc
    cases rest with
    | nil =>
      rw [show joinColon [p] = p from rfl] at hc
      exact h p (by simp) c hc
    | cons q r =>
      rw [show joinColon (p :: q :: r) = p ++ ':' :: joinColon (q :: r) from rfl] at hc
      simp only [List.mem_append, List.mem_cons] at hc
      rcases hc with h1 | h1 | h1
      · exact h p (by simp) c h1
      · subst h1; exact hcolon
      · exact ih (fun p2 hp2 => h p2 (by simp [hp2])) c h1

/-- Every character of an IPv6 rendering is a lowercase hex digit, a colon
or a dot. -/
theorem ipv6Display_mem (x : Ipv6) :
    ∀ c ∈ ipv6Display x,
      c ∈ hexDigits ++ [':', '.'] := by
  intro c hc
  have hjoin : ∀ (gs : List Nat), ∀ d ∈ joinColon (gs.map natToHex),
      d ∈ hexDigits ++ [':', '.'] := by
    intro gs
    refine joinColon_mem (by decide) (gs.map natToHex) ?_
    intro p hp d hd
    obtain ⟨n, _, rfl⟩ := List.mem_map.mp hp
    exact mem_imp (by decide) (natToHex_mem n) d hd
  unfold ipv6Display at hc
  split at hc
  · exact (by decide : ∀ d ∈ [':', ':'],
      d ∈ hexDigits ++ [':', '.']) c hc
  · exact (by decide : ∀ d ∈ [':', ':', '1'],
      d ∈ hexDigits ++ [':', '.']) c hc
  · simp only [List.mem_append, List.mem_cons] at hc
    repeat' rcases hc with hc | hc
    all_goals
      first
        | decide
        | exact mem_imp (by decide) (ipv4Display_mem _) _ hc
  · have hc2 : c ∈ (if (longestZeroRun x.groups).2 > 1 then
        joinColon ((x.groups.take (longestZeroRun x.groups).1).map natToHex) ++
          ':' :: ':' :: joinColon
            ((x.groups.drop ((longestZeroRun x.groups).1 + (longestZeroRun x.groups).2)).map natToHex)
      else joinColon (x.groups.map natToHex)) := hc
    split at hc2
    · simp only [List.mem_append, List.mem_cons] at hc2
      rcases hc2 with h | h | h
      · exact hjoin _ c h
      · subst h; decide
      · rcases h with h | h
        · subst h; decide
        · exact hjoin _ c h
    · exact hjoin _ c hc2

/-- A list all of whose elements fail the test has a false `any`. -/
theorem any_false (p : Char → Bool) :
    ∀ (x : List Char), (∀ c ∈ x, p c = false) → x.any p = false := by
  intro x
  induction x with
  | nil => intro _; rfl
  | cons a t ih =>
    intro h
    have ha := h a (by simp)
    have iht := ih (fun c hc => h c (by simp [hc]))
    simp [List.any_cons, ha, iht]

/-- Characters of `host:port` for a host drawn from the IPv4 display
characters. -/
theorem hostport_chars (x : List Char) (p : Nat)
    (hxmem : ∀ c ∈ x, c ∈ decDigits ++ ['.']) :
    ∀ c ∈ x ++ ':' :: natToDec p,
      c ∈ decDigits ++ ['.', ':'] := by
  intro c hc
  rcases List.mem_append.mp hc with h | h
  · exact (by decide : ∀ d ∈ decDigits ++ ['.'],
      d ∈ decDigits ++ ['.', ':']) c (hxmem c h)
  · rcases List.mem_cons.mp h with rfl | h2
    · decide
    · exact (by decide : ∀ d ∈ decDigits,
        d ∈ decDigits ++ ['.', ':']) c
        (natToDec_mem p c h2)

/-- Characters of `[v6]:port` for a host drawn from the IPv6 display
characters. -/
theorem bracket_chars (x : List Char) (p : Nat)
    (hxmem : ∀ c ∈ x, c ∈ hexDigits ++ [':', '.']) :
    ∀ c ∈ '[' :: (x ++ ']' :: ':' :: natToDec p),
      c ∈ hexDigits ++ [':', '.', '[', ']'] := by
  intro c hc
  rcases List.mem_cons.mp hc with rfl | hc2
  · decide
  · rcases List.mem_append.mp hc2 with h | h
    · exact (by decide : ∀ d ∈ hexDigits ++ [':', '.'],
        d ∈ hexDigits ++ [':', '.', '[', ']']) c (hxmem c h)
    · rcases List.mem_cons.mp h with rfl | h2
      · decide
      · rcases List.mem_cons.mp h2 with rfl | h3
        · decide
        · exact (by decide : ∀ d ∈ decDigits,
            d ∈ hexDigits ++ [':', '.', '[', ']']) c
            (natToDec_mem p c h3)

/-- `parsePortPart` on a decimal rendering below 2^16. -/
theorem parsePortPart_natToDec (scheme : String) {p : Nat} (hp : p < 65536) :
    parsePortPart scheme (natToDec p) =
      some (if p = defaultPort scheme then none else some p) := by
  obtain ⟨c, cs, hcs, hc⟩ := natToDec_head p
  have hdigs : (natToDec p).all Char.isDigit = true := by
    rw [List.all_eq_true]
    exact mem_imp (by decide) (natToDec_mem p)
  unfold parsePortPart
  rw [if_neg (show ¬ ((natToDec p).isEmpty = true) from by
    rw [show (natToDec p).isEmpty = false from by rw [hcs]; rfl]
    simp)]
  rw [if_pos hdigs]
  simp only [decFold_natToDec]
  rw [if_neg (show ¬ (p ≥ 65536) from by omega)]
  by_cases hd : p = defaultPort scheme
  · rw [if_pos hd, if_pos hd]
  · rw [if_neg hd, if_neg hd]

/-- `ModelUrl.parse` on `http://` followed by a path-free authority. -/
theorem modelUrlParse_http_authority (auth : List Char)
    (hns : ∀ c ∈ auth, ¬(c = '/' ∨ c = '?' ∨ c = '#')) :
    ModelUrl.parse ("http://".data ++ auth) =
      (parseAuthority "http" auth).map (fun hp =>
        { scheme := "http", hostSer := ⟨hp.1⟩, port := hp.2,
          pathRest := "/", isSpecial := true }) := by
  have hstep : ModelUrl.parse ("http://".data ++ auth) =
      (parseAuthority "http"
          (auth.takeWhile (fun c => ¬(c = '/' ∨ c = '?' ∨ c = '#')))).map (fun hp =>
        { scheme := "http", hostSer := ⟨hp.1⟩, port := hp.2,
          pathRest := ⟨pathOf (auth.dropWhile (fun c => ¬(c = '/' ∨ c = '?' ∨ c = '#')))⟩,
          isSpecial := true }) := rfl
  obtain ⟨ht, hd⟩ := takeWhile_all (fun c => ¬(c = '/' ∨ c = '?' ∨ c = '#')) auth
    (fun c hc => decide_eq_true (hns c hc))
  rw [hstep, ht, hd]
  rfl

/-- `parseAuthority` on `host:port` where the host is an IPv4 rendering and
the port a decimal rendering below 2^16. -/
theorem parseAuthority_hostport (c0 : Char) (cs0 : List Char) (a : Ipv4) (p : Nat)
    (hx : ipv4Parse (c0 :: cs0) = some a)
    (hxmem : ∀ c ∈ c0 :: cs0, c ∈ decDigits ++ ['.'])
    (hp : p < 65536) :
    parseAuthority "http" ((c0 :: cs0) ++ ':' :: natToDec p) =
      some (ipv4Display a, if p = 80 then none else some p) := by
  have hall := hostport_chars (c0 :: cs0) p hxmem
  have hc0 := hxmem c0 (List.mem_cons_self c0 cs0)
  have hany : ((c0 :: cs0) ++ ':' :: natToDec p).any (· = '@') = false :=
    any_false (· = '@') _ (mem_imp (by decide) hall)
  have hreg : (c0 :: cs0).all regNameChar = true := by
    rw [List.all_eq_true]
    exact mem_imp (by decide) hxmem
  obtain ⟨htw, hdw⟩ := takeWhile_stop (· ≠ ':') ':' (natToDec p) (by decide) (c0 :: cs0)
    (mem_imp (by decide) hxmem)
  unfold parseAuthority
  rw [if_neg (show ¬ (((c0 :: cs0) ++ ':' :: natToDec p).isEmpty = true) from by
    rw [show ((c0 :: cs0) ++ ':' :: natToDec p).isEmpty = false from rfl]
    simp)]
  rw [if_neg (show ¬ (((c0 :: cs0) ++ ':' :: natToDec p).any (· = '@') = true) from by
    rw [hany]
    simp)]
  rw [if_neg (show ¬ (((c0 :: cs0) ++ ':' :: natToDec p).head? = some '[') from by
    rw [show ((c0 :: cs0) ++ ':' :: natToDec p).head? = some c0 from rfl]
    simp only [Option.some.injEq]
    intro h
    subst h
    exact absurd hc0 (by decide))]
  simp only [htw, hdw]
  rw [if_neg (show ¬ ((c0 :: cs0).isEmpty = true) from by simp)]
  rw [if_neg (not_not_intro hreg)]
  simp only [hx]
  rw [parsePortPart_natToDec "http" hp]
  rw [Option.map_some']
  rw [show defaultPort "http" = 80 from rfl]

/-- `parseAuthority` on `[v6]:port` where the bracketed content is an IPv6
rendering and the port a decimal rendering below 2^16. -/
theorem parseAuthority_bracket (x : List Char) (a : Ipv6) (p : Nat)
    (h6 : ipv6Parse x = some a)
    (hxmem : ∀ c ∈ x, c ∈ hexDigits ++ [':', '.'])
    (hp : p < 65536) :
    parseAuthority "http" ('[' :: (x ++ ']' :: ':' :: natToDec p)) =
      some ('[' :: ipv6Display a ++ [']'], if p = 80 then none else some p) := by
  have hall := bracket_chars x p hxmem
  have hany : ('[' :: (x ++ ']' :: ':' :: natToDec p)).any (· = '@') = false :=
    any_false (· = '@') _ (mem_imp (by decide) hall)
  have hsplit := splitFirstCh_at ']' (':' :: natToDec p) x
    (mem_imp (by decide) hxmem)
  unfold parseAuthority
  rw [if_neg (show ¬ (('[' :: (x ++ ']' :: ':' :: natToDec p)).isEmpty = true) from by
    rw [show ('[' :: (x ++ ']' :: ':' :: natToDec p)).isEmpty = false from rfl]
    simp)]
  rw [if_neg (show ¬ (('[' :: (x ++ ']' :: ':' :: natToDec p)).any (· = '@') = true) from by
    rw [hany]
    simp)]
  rw [if_pos (show ('[' :: (x ++ ']' :: ':' :: natToDec p)).head? = some '[' from rfl)]
  simp only [List.tail_cons, hsplit, h6]
  rw [parsePortPart_natToDec "http" hp]
  rw [Option.map_some']
  rw [show defaultPort "http" = 80 from rfl]

/-- C6 (amended): on `host:port` inputs whose host is a canonically rendered
IPv4 literal, and on `[v6]:port` inputs whose bracketed host is a canonically
rendered IPv6 literal (port below 2^16 in both), the normalizer succeeds and
the resulting URL's host serialization and effective port reproduce the input
host and port exactly.  (The claim's remaining family, unbracketed IPv6
`host:port`, fails — see the counterexample.) -/
theorem normalizer_roundtrip_hostport :
    (∀ (x : List Char) (a : Ipv4) (p : Nat),
      ipFromStr x = some (.v4 a) → ipv4Display a = x → p < 65536 →
      ∃ u, parse_url_or_ip (x ++ ':' :: natToDec p) = .ok u ∧
        u.hostSer = ⟨x⟩ ∧ u.portOrKnownDefault = some p) ∧
    (∀ (x : List Char) (a : Ipv6) (p : Nat),
      ipFromStr x = some (.v6 a) → ipv6Display a = x → p < 65536 →
      ∃ u, parse_url_or_ip ('[' :: (x ++ ']' :: ':' :: natToDec p)) = .ok u ∧
        u.hostSer = ⟨'[' :: x ++ [']']⟩ ∧ u.portOrKnownDefault = some p) := by
  constructor
  · intro x a p hipf hdisp hp
    have hx4 : ipv4Parse x = some a := by
      unfold ipFromStr at hipf
      cases h4 : ipv4Parse x with
      | some b =>
        simp only [h4, Option.some.injEq, IpAddrM.v4.injEq] at hipf
        rw [hipf]
      | none =>
        rw [h4] at hipf
        cases h6 : ipv6Parse x with
        | some b => simp [h6] at hipf
        | none => simp [h6] at hipf
    have hxmem : ∀ c ∈ x, c ∈ decDigits ++ ['.'] := by
      intro c hc
      exact ipv4Display_mem a c (by rw [hdisp]; exact hc)
    obtain ⟨c0, cs0, hxeq0, hc0⟩ := ipv4Display_head a
    have hxeq : x = c0 :: cs0 := by rw [← hdisp, hxeq0]
    subst hxeq
    have hall := hostport_chars (c0 :: cs0) p hxmem
    have hparse : ModelUrl.parse ((c0 :: cs0) ++ ':' :: natToDec p) = none := by
      show ModelUrl.parse (c0 :: (cs0 ++ ':' :: natToDec p)) = none
      simp only [decDigits, List.mem_cons, List.not_mem_nil, or_false] at hc0
      repeat' rcases hc0 with hc0 | hc0
      all_goals rfl
    have hfind : findSubIdx [']', ':'] ((c0 :: cs0) ++ ':' :: natToDec p) = none :=
      findSub_bracket_none ((c0 :: cs0) ++ ':' :: natToDec p) (mem_imp (by decide) hall)
    have hrf : rfindCh ':' ((c0 :: cs0) ++ ':' :: natToDec p) = some (c0 :: cs0).length :=
      rfind_last ':' (natToDec p) (mem_imp (by decide) (natToDec_mem p)) (c0 :: cs0)
    have htake : ((c0 :: cs0) ++ ':' :: natToDec p).take (c0 :: cs0).length = c0 :: cs0 :=
      take_len_app _ _
    have hdrop : ((c0 :: cs0) ++ ':' :: natToDec p).drop ((c0 :: cs0).length + 1) =
        natToDec p := by
      rw [show (c0 :: cs0) ++ ':' :: natToDec p = ((c0 :: cs0) ++ [':']) ++ natToDec p from
        by simp]
      rw [show (c0 :: cs0).length + 1 = ((c0 :: cs0) ++ [':']).length from by simp]
      exact drop_len_app _ _
    have hpu : parseUIntRust 65535 (natToDec p) = some p := parseUIntRust_natToDec (by omega)
    have hfinal : ModelUrl.parse ("http://".data ++ ipDisplay (IpAddrM.v4 a) ++
        ':' :: natToDec p) =
        some ⟨"http", ⟨c0 :: cs0⟩, if p = 80 then none else some p, "/", true⟩ := by
      have hEq : "http://".data ++ ipDisplay (IpAddrM.v4 a) ++ ':' :: natToDec p =
          "http://".data ++ ((c0 :: cs0) ++ ':' :: natToDec p) := by
        show "http://".data ++ ipv4Display a ++ ':' :: natToDec p = _
        rw [hdisp, List.append_assoc]
      rw [hEq]
      rw [modelUrlParse_http_authority ((c0 :: cs0) ++ ':' :: natToDec p)
        (mem_imp (by decide) hall)]
      rw [parseAuthority_hostport c0 cs0 a p hx4 hxmem hp]
      rw [Option.map_some']
      rw [hdisp]
    refine ⟨⟨"http", ⟨c0 :: cs0⟩, if p = 80 then none else some p, "/", true⟩, ?_, rfl, ?_⟩
    · unfold parse_url_or_ip
      simp only [hparse, hfind, hrf, htake, hdrop, hpu, hipf, hfinal]
    · by_cases h80 : p = 80
      · rw [if_pos h80]
        subst h80
        rfl
      · rw [if_neg h80]
        rfl
  · intro x a p hipf hdisp hp
    have hx6 : ipv6Parse x = some a := by
      unfold ipFromStr at hipf
      cases h4 : ipv4Parse x with
      | some b => simp [h4] at hipf
      | none =>
        rw [h4] at hipf
        cases h6 : ipv6Parse x with
        | some b =>
          simp only [h6, Option.map_some', Option.some.injEq, IpAddrM.v6.injEq] at hipf
          rw [hipf]
        | none => simp [h6] at hipf
    have hxmem : ∀ c ∈ x, c ∈ hexDigits ++ [':', '.'] := by
      intro c hc
      exact ipv6Display_mem a c (by rw [hdisp]; exact hc)
    have hall := bracket_chars x p hxmem
    have hparse : ModelUrl.parse ('[' :: (x ++ ']' :: ':' :: natToDec p)) = none := rfl
    have hfind : findSubIdx [']', ':'] ('[' :: (x ++ ']' :: ':' :: natToDec p)) =
        some (x.length + 1) := by
      have hz : ∀ c ∈ '[' :: x, c ≠ ']' := by
        intro c hc
        rcases List.mem_cons.mp hc with rfl | h2
        · decide
        · exact mem_imp (show ∀ d ∈ hexDigits ++ [':', '.'], d ≠ ']' from by decide) hxmem c h2
      have h := findSub_bracket_at (natToDec p) ('[' :: x) hz
      simp only [List.cons_append, List.length_cons] at h
      exact h
    have htd : ((('[' :: (x ++ ']' :: ':' :: natToDec p)).take (x.length + 1)).drop 1) = x := by
      have ht : ('[' :: (x ++ ']' :: ':' :: natToDec p)).take (x.length + 1) = '[' :: x := by
        rw [List.take_succ_cons, take_len_app]
      rw [ht]
      rfl
    have hdr : ('[' :: (x ++ ']' :: ':' :: natToDec p)).drop (x.length + 1 + 2) =
        natToDec p := by
      rw [show '[' :: (x ++ ']' :: ':' :: natToDec p) =
        (('[' :: x) ++ [']', ':']) ++ natToDec p from by simp]
      rw [show x.length + 1 + 2 = (('[' :: x) ++ [']', ':']).length from by
        simp only [List.length_append, List.length_cons, List.length_nil]]
      exact drop_len_app _ _
    have hpu : parseUIntRust 65535 (natToDec p) = some p := parseUIntRust_natToDec (by omega)
    have hfinal : ModelUrl.parse ("http://[".data ++ ipDisplay (IpAddrM.v6 a) ++
        ']' :: ':' :: natToDec p) =
        some ⟨"http", ⟨'[' :: x ++ [']']⟩, if p = 80 then none else some p, "/", true⟩ := by
      have hEq : "http://[".data ++ ipDisplay (IpAddrM.v6 a) ++ ']' :: ':' :: natToDec p =
          "http://".data ++ ('[' :: (x ++ ']' :: ':' :: natToDec p)) := by
        show "http://[".data ++ ipv6Display a ++ ']' :: ':' :: natToDec p = _
        rw [hdisp]
        rw [show "http://[".data = "http://".data ++ ['['] from rfl]
        simp [List.append_assoc]
      rw [hEq]
      rw [modelUrlParse_http_authority ('[' :: (x ++ ']' :: ':' :: natToDec p))
        (mem_imp (by decide) hall)]
      rw [parseAuthority_bracket x a p hx6 hxmem hp]
      rw [Option.map_some']
      rw [hdisp]
    refine ⟨⟨"http", ⟨'[' :: x ++ [']']⟩, if p = 80 then none else some p, "/", true⟩,
      ?_, rfl, ?_⟩
    · unfold parse_url_or_ip
      simp only [hparse, hfind, htd, hdr, hpu, hipf, hfinal]
    · by_cases h80 : p = 80
      · rw [if_pos h80]
        subst h80
        rfl
      · rw [if_neg h80]
        rfl

/-- Witness for `normalizer_roundtrip_hostport` at `192.168.1.1:8080` and
`[::1]:8080`. -/
theorem normalizer_roundtrip_hostport_witness :
    (∃ u, parse_url_or_ip ("192.168.1.1".data ++ ':' :: natToDec 8080) = .ok u ∧
      u.hostSer = "192.168.1.1" ∧ u.portOrKnownDefault = some 8080) ∧
    (∃ u, parse_url_or_ip ('[' :: ("::1".data ++ ']' :: ':' :: natToDec 8080)) = .ok u ∧
      u.hostSer = "[::1]" ∧ u.portOrKnownDefault = some 8080) := by
  constructor
  · obtain ⟨u, h1, h2, h3⟩ := normalizer_roundtrip_hostport.1 "192.168.1.1".data
      ⟨192, 168, 1, 1⟩ 8080 (by decide) (by decide) (by decide)
    exact ⟨u, h1, by rw [h2], h3⟩
  · obtain ⟨u, h1, h2, h3⟩ := normalizer_roundtrip_hostport.2 "::1".data
      ⟨[0, 0, 0, 0, 0, 0, 0, 1]⟩ 8080 (by decide) (by decide) (by decide)
    exact ⟨u, h1, by rw [h2]; rfl, h3⟩


end LNURL
